import Mathlib

/-!
Verification development for the agrotecnio-back planning engine.

The definitions below are a shallow embedding of the Python sources:

* app/services/solver.py   (constants, Truck, Farm, Simulation.plan_day,
  Simulation.process_truck_trip, Simulation.calculate_revenue_batch,
  Simulation.get_haversine_estimate, Simulation.get_real_road_distance,
  Simulation.estimate_trip_time, Simulation.setup_scenario,
  Simulation.optimize_fleet)
* app/api/api_v1/routers/simulation.py  (penalty_ratio)
* app/services/farm_service.py          (create_farm)
* app/schemas/farm.py                   (FarmCreate)

Modelling conventions, fixed once here:

* Python floats are embedded as rationals.  All arithmetic in the solver is
  field arithmetic, comparisons and truncation, so the embedding is exact on
  every concrete execution in which no rounding error occurred.
* Transcendental primitives used by the haversine formula (sin, cos, atan2,
  sqrt, radians) are fields of an oracle structure Env, so that every
  definition stays executable; the formula itself is translated literally.
* Randomness (random.normalvariate in grow_pigs, np.random.normal in
  calculate_revenue_batch) and the OSRM road API are likewise oracle fields
  of Env: gain gives the daily growth draw per day and farm position, batch
  gives the sampled weight list, api gives the metre distance of a
  successful routing request and none models every failure path.
* Python exceptions are modelled with Except: a division whose denominator
  is zero returns PlanErr.zeroDivision exactly where Python would raise
  ZeroDivisionError.  The while loop of plan_day is run on explicit fuel;
  plan_day passes fuel computed from the state and PlanErr.outOfFuel marks
  exhaustion, which theorem C1 proves unreachable.
* Mutable Python objects (farms, trucks) live in lists; aliased references
  are embedded as positions into those lists, so shared mutation behaves as
  in the source.
-/

namespace AgroSolver

/-- Python int(x) truncates toward zero; on a rational this is truncating
division of the numerator by the denominator. -/
def truncQ (q : ℚ) : ℤ := Int.tdiv q.num q.den

inductive PlanErr where
  | zeroDivision
  | outOfFuel
deriving Repr, DecidableEq

/-- Python int(a / b): raises ZeroDivisionError when b is zero, otherwise
truncates the exact quotient toward zero. -/
def pyIntDiv (a b : ℚ) : Except PlanErr ℤ :=
  if b = 0 then .error .zeroDivision else .ok (truncQ (a / b))

/-- Python round to an integer, ties to even, on exact rationals. -/
def pyRoundInt (q : ℚ) : ℤ :=
  let f := Rat.floor q
  let r := q - (f : ℚ)
  if r < 1/2 then f
  else if 1/2 < r then f + 1
  else if 2 ∣ f then f else f + 1

/-- Python round(q, n) on exact rationals. -/
def pyRound (n : ℕ) (q : ℚ) : ℚ :=
  (pyRoundInt (q * 10 ^ n) : ℚ) / 10 ^ n

-- Constants of app/services/solver.py

def SIMULATION_DAYS : ℕ := 14
def WORK_DAYS : List ℤ := [0, 1, 2, 3, 4]
def MAX_STOPS : ℕ := 3
def MAX_DAILY_HOURS : ℚ := 8
def AVG_SPEED_KMH : ℚ := 50
def SERVICE_TIME_PER_STOP : ℚ := 0.5
def UNLOADING_TIME_SLAUGHTERHOUSE : ℚ := 0.5
def USE_REAL_ROADS_API : Bool := true
def CIRCUITY_FACTOR_FALLBACK : ℚ := 1.3
def PRICE_PER_KG : ℚ := 1.56
def FIXED_COST_TRUCK_WEEKLY : ℚ := 2000
def COST_PER_KM_SMALL : ℚ := 1.15
def COST_PER_KM_LARGE : ℚ := 1.25
def PENALTY_FACTOR_MILD : ℚ := 0.15
def PENALTY_FACTOR_HARSH : ℚ := 0.20
def PANIC_THRESHOLD_WEIGHT : ℚ := 118
def OPTIMAL_MIN_WEIGHT : ℚ := 108
def SLAUGHTERHOUSE_LAT : ℚ := 41.9308
def SLAUGHTERHOUSE_LON : ℚ := 2.2545
def SLAUGHTERHOUSE_CAPACITY : ℤ := 2000

/-- Oracle for everything the solver consumes from the outside world:
random draws, the routing API, and the transcendental math primitives. -/
structure Env where
  gain : ℤ → ℕ → ℚ
  batch : ℤ → ℚ → ℚ → List ℚ
  api : ℚ → ℚ → ℚ → ℚ → Option ℚ
  sin : ℚ → ℚ
  cos : ℚ → ℚ
  atan2 : ℚ → ℚ → ℚ
  sqrt : ℚ → ℚ
  radians : ℚ → ℚ

/-- Farm object of solver.py (class Farm). -/
structure Farm where
  id : String
  lat : ℚ
  lon : ℚ
  inventory : ℤ
  avg_weight : ℚ
  last_visit_day : ℤ
  weight_std : ℚ
  urgency_score : ℚ
deriving Repr, DecidableEq

/-- Farm.__init__ of solver.py. -/
def mkFarm (f_id : String) (lat lon : ℚ) (initial_pigs : ℤ) (avg_weight : ℚ) : Farm :=
  { id := f_id, lat := lat, lon := lon, inventory := initial_pigs,
    avg_weight := avg_weight, last_visit_day := -999, weight_std := 5,
    urgency_score := 0 }

instance : Inhabited Farm := ⟨mkFarm "" 0 0 0 0⟩

/-- Truck object of solver.py (class Truck); the route holds positions into
the farm list, standing for the Python references to farm objects. -/
structure Truck where
  id : ℕ
  capacity_kg : ℚ
  truck_type : String
  cost_per_km : ℚ
  current_load_kg : ℚ
  pigs_loaded : ℤ
  route : List ℕ
  daily_hours_used : ℚ
deriving Repr, DecidableEq

/-- Truck.__init__ of solver.py. -/
def mkTruck (t_id : ℕ) (capacity_tons : ℚ) (truck_type : String) : Truck :=
  { id := t_id, capacity_kg := capacity_tons * 1000, truck_type := truck_type,
    cost_per_km := if truck_type = "small" then COST_PER_KM_SMALL else COST_PER_KM_LARGE,
    current_load_kg := 0, pigs_loaded := 0, route := [], daily_hours_used := 0 }

instance : Inhabited Truck := ⟨mkTruck 0 0 "small"⟩

/-- Truck.reset_daily_stats of solver.py. -/
def Truck.reset_daily_stats (t : Truck) : Truck :=
  { t with current_load_kg := 0, pigs_loaded := 0, route := [], daily_hours_used := 0 }

/-- Truck.reset_route of solver.py. -/
def Truck.reset_route (t : Truck) : Truck :=
  { t with current_load_kg := 0, pigs_loaded := 0, route := [] }

/-- Farm.grow_pigs of solver.py, with the normal draw supplied by the oracle. -/
def grow_pigs (gain : ℚ) (f : Farm) : Farm :=
  { f with avg_weight := f.avg_weight + gain }

-- List access helpers standing for Python object references.

def getFarmD (fs : List Farm) (i : ℕ) : Farm := fs.getD i default

def updFarm (fs : List Farm) (i : ℕ) (g : Farm → Farm) : List Farm :=
  match fs[i]? with
  | some f => fs.set i (g f)
  | none => fs

def getTruckD (ts : List Truck) (i : ℕ) : Truck := ts.getD i default

def updTruck (ts : List Truck) (i : ℕ) (g : Truck → Truck) : List Truck :=
  match ts[i]? with
  | some t => ts.set i (g t)
  | none => ts

/-- Simulation.get_haversine_estimate of solver.py, literal translation with
the transcendental primitives drawn from the oracle. -/
def get_haversine_estimate (env : Env) (lat1 lon1 lat2 lon2 : ℚ) : ℚ :=
  let R : ℚ := 6371
  let dlat := env.radians (lat2 - lat1)
  let dlon := env.radians (lon2 - lon1)
  let a := env.sin (dlat / 2) * env.sin (dlat / 2) +
    env.cos (env.radians lat1) * env.cos (env.radians lat2) *
    (env.sin (dlon / 2) * env.sin (dlon / 2))
  let c := 2 * env.atan2 (env.sqrt a) (env.sqrt (1 - a))
  R * c * CIRCUITY_FACTOR_FALLBACK

/-- The module global CACHE_DISTANCES, threaded explicitly; a new binding at
the front shadows older ones exactly like a dict assignment. -/
abbrev Cache := List ((ℚ × ℚ × ℚ × ℚ) × ℚ)

/-- Simulation.get_real_road_distance of solver.py.  The api oracle returns
the metre distance of route 0 on HTTP 200 with a non empty route list, and
none on every failure path (timeout, error status, no routes, parse error). -/
def get_real_road_distance (env : Env) (cache : Cache) (lat1 lon1 lat2 lon2 : ℚ) :
    ℚ × Cache :=
  if !USE_REAL_ROADS_API then
    (get_haversine_estimate env lat1 lon1 lat2 lon2, cache)
  else
    let cache_key := (pyRound 4 lat1, pyRound 4 lon1, pyRound 4 lat2, pyRound 4 lon2)
    match cache.lookup cache_key with
    | some d => (d, cache)
    | none =>
      match env.api lat1 lon1 lat2 lon2 with
      | some distance_m =>
        let dist_km := distance_m / 1000
        (dist_km, (cache_key, dist_km) :: cache)
      | none =>
        let fallback_dist := get_haversine_estimate env lat1 lon1 lat2 lon2
        (fallback_dist, (cache_key, fallback_dist) :: cache)

/-- The per pig penalty branch inside Simulation.calculate_revenue_batch of
solver.py (lines 231 to 237). -/
def batch_penalty_factor (w : ℚ) : ℚ :=
  if 105 ≤ w ∧ w ≤ 115 then 0
  else if (100 ≤ w ∧ w < 105) ∨ (115 < w ∧ w ≤ 120) then PENALTY_FACTOR_MILD
  else PENALTY_FACTOR_HARSH

/-- Simulation.calculate_revenue_batch of solver.py, applied to the weight
list already drawn by the oracle (np.random.normal at the call site). -/
def calculate_revenue_batch (weights : List ℚ) : ℚ × ℚ :=
  weights.foldl
    (fun acc w =>
      let penalty := batch_penalty_factor w
      let value := w * PRICE_PER_KG * (1 - penalty)
      (acc.1 + value, acc.2 + w * PRICE_PER_KG * penalty))
    (0, 0)

/-- Simulation.estimate_trip_time of solver.py. -/
def estimate_trip_time (total_dist_km : ℚ) (num_stops : ℕ) : ℚ :=
  let drive_time := total_dist_km / AVG_SPEED_KMH
  let service_time := (num_stops : ℚ) * SERVICE_TIME_PER_STOP + UNLOADING_TIME_SLAUGHTERHOUSE
  drive_time + service_time

/-- Load factor guard of Simulation.process_truck_trip (lines 442 to 444). -/
def load_factor (current_load_kg capacity_kg : ℚ) : ℚ :=
  if capacity_kg > 0 then current_load_kg / capacity_kg else 0

/-- Trip cost formula of Simulation.process_truck_trip (line 446):
distance times cost per km times load factor. -/
def trip_cost (total_dist cost_per_km current_load_kg capacity_kg : ℚ) : ℚ :=
  total_dist * cost_per_km * load_factor current_load_kg capacity_kg

/-- penalty_ratio of app/api/api_v1/routers/simulation.py. -/
def penalty_ratio (weight : ℚ) : ℚ :=
  if 105 ≤ weight ∧ weight ≤ 115 then 0
  else if 100 ≤ weight ∧ weight ≤ 120 then 0.15
  else 0.20

/-- One record of daily_log trucks_ops, as filled by process_truck_trip. -/
structure TruckOp where
  truck_id : ℕ
  route : List String
  trip_duration_hours : ℚ
  distance_km : ℚ
  pigs_delivered : ℤ
  load_pct : ℚ
  trip_cost : ℚ
  revenue : ℚ
  penalty : ℚ
  profit : ℚ
deriving Repr, DecidableEq

/-- The daily_log dict built by plan_day. -/
structure DailyLog where
  day : ℤ
  trucks_ops : List TruckOp
  total_processed : ℤ
  daily_profit : ℚ
deriving Repr, DecidableEq

def base_daily_log (day_num : ℤ) : DailyLog :=
  { day := day_num, trucks_ops := [], total_processed := 0, daily_profit := 0 }

/-- The three log mutations of process_truck_trip (lines 471 to 473). -/
def pushOp (l : DailyLog) (op : TruckOp) : DailyLog :=
  { l with trucks_ops := l.trucks_ops ++ [op],
           total_processed := l.total_processed + op.pigs_delivered,
           daily_profit := l.daily_profit + op.profit }

/-- The mutable Simulation attributes touched by plan_day: the farm list,
the truck list, the three running totals, and the distance cache. -/
structure SimState where
  farms : List Farm
  trucks : List Truck
  total_profit : ℚ
  total_penalties : ℚ
  total_transport_cost : ℚ
  cache : Cache
deriving Repr, DecidableEq

/-- Simulation.process_truck_trip of solver.py.  In the source the three log
mutations are guarded by the silent flag; here the trip record op is
returned and plan_day applies it to the log unless silent, which yields the
same log because building op has no side effect. -/
def process_truck_trip (env : Env) (sim : SimState) (truck : Truck)
    (precalc_dist_km trip_duration : ℚ) : Except PlanErr (SimState × TruckOp) :=
  let total_dist := precalc_dist_km
  let route_names := truck.route.map (fun i => (getFarmD sim.farms i).id)
  let lf := load_factor truck.current_load_kg truck.capacity_kg
  let cost := trip_cost total_dist truck.cost_per_km truck.current_load_kg truck.capacity_kg
  if truck.route.length = 0 then .error .zeroDivision
  else
    let avg_w_route :=
      (truck.route.map (fun i => (getFarmD sim.farms i).avg_weight)).sum /
        (truck.route.length : ℚ)
    let rp := calculate_revenue_batch (env.batch truck.pigs_loaded avg_w_route 5)
    let rev := rp.1
    let pen := rp.2
    let profit := rev - cost
    let fill_pct := lf * 100
    let sim :=
      { sim with total_profit := sim.total_profit + profit,
                 total_penalties := sim.total_penalties + pen,
                 total_transport_cost := sim.total_transport_cost + cost }
    let op : TruckOp :=
      { truck_id := truck.id, route := route_names,
        trip_duration_hours := pyRound 2 trip_duration,
        distance_km := pyRound 2 total_dist,
        pigs_delivered := truck.pigs_loaded,
        load_pct := pyRound 1 (fill_pct),
        trip_cost := pyRound 2 cost, revenue := pyRound 2 rev,
        penalty := pyRound 2 pen, profit := pyRound 2 profit }
    .ok (sim, op)

/-- The candidate filter of plan_day (lines 269 to 273): positions of the
farms with a visit at least seven days old and positive inventory. -/
def computeCandidates (farms : List Farm) (day_index : ℤ) : List ℕ :=
  (List.range farms.length).filter (fun i =>
    let f := getFarmD farms i
    decide (day_index - f.last_visit_day ≥ 7) && decide (f.inventory > 0))

/-- One pass of the urgency scoring loop of plan_day (lines 276 to 286),
writing the transient urgency_score field of one candidate farm. -/
def scoreOne (env : Env) (fs : List Farm) (i : ℕ) : List Farm :=
  let f := getFarmD fs i
  let dist_est := get_haversine_estimate env SLAUGHTERHOUSE_LAT SLAUGHTERHOUSE_LON f.lat f.lon
  let score :=
    if f.avg_weight ≥ PANIC_THRESHOLD_WEIGHT then 1000 + f.avg_weight
    else if f.avg_weight < OPTIMAL_MIN_WEIGHT then -1000 + f.avg_weight
    else
      let est_revenue := f.avg_weight * PRICE_PER_KG
      let est_transport_cost := dist_est * 2 * 1.20
      est_revenue - est_transport_cost
  updFarm fs i (fun g => { g with urgency_score := score })

/-- The urgency scoring loop of plan_day (lines 276 to 286). -/
def scoreCandidates (env : Env) (farms : List Farm) (cands : List ℕ) : List Farm :=
  cands.foldl (scoreOne env) farms

/-- Stable insertion for descending urgency; a new element goes after every
already placed element of greater or equal score. -/
def insertDesc (farms : List Farm) (i : ℕ) : List ℕ → List ℕ
  | [] => [i]
  | j :: rest =>
    if (getFarmD farms j).urgency_score < (getFarmD farms i).urgency_score then
      i :: j :: rest
    else
      j :: insertDesc farms i rest

/-- candidates.sort(key=urgency_score, reverse=True) of plan_day line 288.
The Python sort is stable, and a stable sort is determined by its
comparator, so stable insertion sort gives the identical list. -/
def sortByUrgency (farms : List Farm) (cands : List ℕ) : List ℕ :=
  cands.foldr (insertDesc farms) []

/-- The inner scan of the multi stop loop (lines 332 to 358): best candidate
by combined score, strict improvement, first seen wins ties.  Returns the
winning combination (comb, position, leg_dist, return_dist, detour_km). -/
def scanStep (env : Env) (farms : List Farm) (cur : ℕ) (route_len : ℕ)
    (dist_hub_direct dist_accum_base daily_hours_used : ℚ)
    (acc : Option (ℚ × ℕ × ℚ × ℚ × ℚ)) (c : ℕ) : Option (ℚ × ℕ × ℚ × ℚ × ℚ) :=
  let cand := getFarmD farms c
  if cand.inventory > 0 then
    if cand.avg_weight < OPTIMAL_MIN_WEIGHT then acc
    else
      let curf := getFarmD farms cur
      let leg_dist := get_haversine_estimate env curf.lat curf.lon cand.lat cand.lon
      let return_dist_cand :=
        get_haversine_estimate env cand.lat cand.lon SLAUGHTERHOUSE_LAT SLAUGHTERHOUSE_LON
      let detour_km := leg_dist + return_dist_cand - dist_hub_direct
      if leg_dist > 50 ∧ detour_km > 25 then acc
      else
        let new_total_dist := dist_accum_base + leg_dist + return_dist_cand
        let new_total_time := estimate_trip_time new_total_dist (route_len + 1)
        if daily_hours_used + new_total_time > MAX_DAILY_HOURS + 0.5 then acc
        else
          let cost_score := -(detour_km * 2)
          let qual_score :=
            (100 - |cand.avg_weight - 110|) + (if cand.avg_weight > 118 then 500 else 0)
          let comb := qual_score + cost_score
          match acc with
          | none => some (comb, c, leg_dist, return_dist_cand, detour_km)
          | some a =>
            if comb > a.1 then some (comb, c, leg_dist, return_dist_cand, detour_km)
            else acc
  else acc

def scanBest (env : Env) (farms : List Farm) (cands : List ℕ) (cur : ℕ)
    (route_len : ℕ) (dist_hub_direct dist_accum_base daily_hours_used : ℚ) :
    Option (ℚ × ℕ × ℚ × ℚ × ℚ) :=
  cands.foldl
    (scanStep env farms cur route_len dist_hub_direct dist_accum_base daily_hours_used)
    none

/-- The multi stop expansion loop of plan_day (lines 328 to 379).  The fuel
argument only bounds the recursion; called with MAX_STOPS it never runs out
because the loop condition stops at route length MAX_STOPS. -/
def expand (env : Env) (farms : List Farm) : ℕ → Truck → List ℕ → ℕ → ℚ → ℚ → ℤ →
    Except PlanErr (Truck × List ℕ)
  | 0, truck, cands, _, _, _, _ => .ok (truck, cands)
  | fuel + 1, truck, cands, cur, dist_hub_direct, dist_accum_base, slaughtered =>
    if truck.route.length < MAX_STOPS ∧ truck.current_load_kg < truck.capacity_kg * 0.90 then
      match scanBest env farms cands cur truck.route.length dist_hub_direct dist_accum_base
          truck.daily_hours_used with
      | none => .ok (truck, cands)
      | some (_, best, best_leg_dist, best_return_dist, _) =>
        let cands := cands.erase best
        let truck := { truck with route := truck.route ++ [best] }
        let dist_accum_base := dist_accum_base + best_leg_dist
        let dist_hub_direct := best_return_dist
        let bf := getFarmD farms best
        let rem_kg := truck.capacity_kg - truck.current_load_kg
        match pyIntDiv rem_kg bf.avg_weight with
        | .error e => .error e
        | .ok p_cap =>
          let p_take := min p_cap bf.inventory
          let p_take := min p_take (SLAUGHTERHOUSE_CAPACITY - slaughtered - truck.pigs_loaded)
          if p_take > 0 then
            let truck :=
              { truck with pigs_loaded := truck.pigs_loaded + p_take,
                           current_load_kg := truck.current_load_kg + (p_take : ℚ) * bf.avg_weight }
            expand env farms fuel truck cands best dist_hub_direct dist_accum_base slaughtered
          else
            .ok (truck, cands)
    else
      .ok (truck, cands)

/-- The exact round trip distance of the validation loop (lines 384 to 389):
hub to first stop, stop to stop, last stop back to hub, through the
distance oracle with its cache. -/
def computeTripDist (env : Env) (farms : List Farm) (cache : Cache) (route : List ℕ) :
    ℚ × Cache :=
  let step := route.foldl
    (fun acc i =>
      let f := getFarmD farms i
      let dc := get_real_road_distance env acc.2.2.2 acc.2.1 acc.2.2.1 f.lat f.lon
      (acc.1 + dc.1, f.lat, f.lon, dc.2))
    ((0 : ℚ), SLAUGHTERHOUSE_LAT, SLAUGHTERHOUSE_LON, cache)
  let back := get_real_road_distance env step.2.2.2 step.2.1 step.2.2.1
    SLAUGHTERHOUSE_LAT SLAUGHTERHOUSE_LON
  (step.1 + back.1, back.2)

/-- The time feasibility backtracking loop of plan_day (lines 382 to 400).
Returns (route_accepted, route, candidates, trip_dist_km, est_time, cache).
The fuel argument bounds the recursion; called with the route length it
never runs out because every rejection shortens the route by one. -/
def validateRoute (env : Env) (farms : List Farm) (daily_hours_used : ℚ) :
    ℕ → List ℕ → List ℕ → Cache → Bool × List ℕ × List ℕ × ℚ × ℚ × Cache
  | _, [], cands, cache => (false, [], cands, 0, 0, cache)
  | 0, a :: rest, cands, cache => (false, a :: rest, cands, 0, 0, cache)
  | fuel + 1, a :: rest, cands, cache =>
    let route := a :: rest
    let dc := computeTripDist env farms cache route
    let trip_dist_km := dc.1
    let est_time := estimate_trip_time trip_dist_km route.length
    if daily_hours_used + est_time ≤ MAX_DAILY_HOURS then
      (true, route, cands, trip_dist_km, est_time, dc.2)
    else
      let removed := route.getLast (List.cons_ne_nil a rest)
      validateRoute env farms daily_hours_used fuel route.dropLast (removed :: cands) dc.2

/-- The commit loop of plan_day (lines 406 to 423): recompute the exact load
of every stop, decrement inventories, stamp last_visit_day.  Returns the
updated farm list, the remaining capacity, the pigs of this trip and the
load in kg. -/
def commitLoads (day_index : ℤ) (slaughtered_today : ℤ) :
    List Farm → List ℕ → ℚ → ℤ → ℚ → Except PlanErr (List Farm × ℚ × ℤ × ℚ)
  | farms, [], remaining_cap_kg, final_pigs, load_kg =>
    .ok (farms, remaining_cap_kg, final_pigs, load_kg)
  | farms, i :: rest, remaining_cap_kg, final_pigs, load_kg =>
    let f := getFarmD farms i
    match pyIntDiv remaining_cap_kg f.avg_weight with
    | .error e => .error e
    | .ok p_cap =>
      let p_take := min p_cap f.inventory
      let rem_global := SLAUGHTERHOUSE_CAPACITY - slaughtered_today - final_pigs
      let p_take := min p_take rem_global
      if p_take > 0 then
        let farms := updFarm farms i
          (fun g => { g with inventory := g.inventory - p_take, last_visit_day := day_index })
        commitLoads day_index slaughtered_today farms rest
          (remaining_cap_kg - (p_take : ℚ) * f.avg_weight) (final_pigs + p_take)
          (load_kg + (p_take : ℚ) * f.avg_weight)
      else
        commitLoads day_index slaughtered_today farms rest remaining_cap_kg final_pigs load_kg

/-- The state of the multi trip while loop of plan_day: the simulation
attributes, the candidate queue, the active truck queue, the daily
slaughter counter, and the committed trip records in order. -/
structure LoopSt where
  sim : SimState
  candidates : List ℕ
  active_trucks : List ℕ
  slaughtered_today : ℤ
  ops : List TruckOp
deriving Repr, DecidableEq

/-- The while condition of plan_day line 296. -/
def loopCond (st : LoopSt) : Bool :=
  !st.candidates.isEmpty &&
    decide (st.slaughtered_today < SLAUGHTERHOUSE_CAPACITY) &&
    !st.active_trucks.isEmpty

/-- One iteration of the multi trip while loop of plan_day (lines 296 to
432).  Returns none for the break on a negative head urgency score,
otherwise the next loop state. -/
def loopIter (env : Env) (day_index : ℤ) (st : LoopSt) :
    Except PlanErr (Option LoopSt) :=
  match st.candidates with
  | [] => .ok none
  | c0 :: cs =>
    if (getFarmD st.sim.farms c0).urgency_score < 0 then .ok none
    else
      match st.active_trucks with
      | [] => .ok none
      | tIdx :: restTrucks =>
        let trucks := updTruck st.sim.trucks tIdx Truck.reset_route
        let truck := getTruckD trucks tIdx
        if truck.daily_hours_used ≥ MAX_DAILY_HOURS then
          .ok (some { st with sim := { st.sim with trucks := trucks },
                              active_trucks := restTrucks })
        else
          let current_farm := c0
          let cands := cs
          let truck := { truck with route := truck.route ++ [current_farm] }
          let cf := getFarmD st.sim.farms current_farm
          match pyIntDiv truck.capacity_kg cf.avg_weight with
          | .error e => .error e
          | .ok pigs_cap =>
            let pigs_take := min pigs_cap cf.inventory
            let rem_slaughter := SLAUGHTERHOUSE_CAPACITY - st.slaughtered_today
            let pigs_take := min pigs_take rem_slaughter
            let truck := { truck with pigs_loaded := pigs_take,
                                      current_load_kg := (pigs_take : ℚ) * cf.avg_weight }
            let dist_hub_direct :=
              get_haversine_estimate env cf.lat cf.lon SLAUGHTERHOUSE_LAT SLAUGHTERHOUSE_LON
            let dist_accum_base :=
              get_haversine_estimate env SLAUGHTERHOUSE_LAT SLAUGHTERHOUSE_LON cf.lat cf.lon
            match expand env st.sim.farms MAX_STOPS truck cands current_farm
                dist_hub_direct dist_accum_base st.slaughtered_today with
            | .error e => .error e
            | .ok ec =>
              let truck := ec.1
              let cands := ec.2
              let vr := validateRoute env st.sim.farms truck.daily_hours_used
                truck.route.length truck.route cands st.sim.cache
              let route_accepted := vr.1
              let truck := { truck with route := vr.2.1 }
              let cands := vr.2.2.1
              let trip_dist_km := vr.2.2.2.1
              let est_time := vr.2.2.2.2.1
              let sim := { st.sim with cache := vr.2.2.2.2.2 }
              if route_accepted ∧ truck.route.length > 0 then
                let truck := { truck with daily_hours_used := truck.daily_hours_used + est_time,
                                          pigs_loaded := 0, current_load_kg := 0 }
                match commitLoads day_index st.slaughtered_today sim.farms truck.route
                    truck.capacity_kg 0 0 with
                | .error e => .error e
                | .ok cl =>
                  let truck := { truck with pigs_loaded := cl.2.2.1, current_load_kg := cl.2.2.2 }
                  let slaughtered := st.slaughtered_today + cl.2.2.1
                  let sim := { sim with farms := cl.1 }
                  match process_truck_trip env sim truck trip_dist_km est_time with
                  | .error e => .error e
                  | .ok pr =>
                    let sim := { pr.1 with trucks := trucks.set tIdx truck }
                    .ok (some { sim := sim, candidates := cands,
                                active_trucks := restTrucks ++ [tIdx],
                                slaughtered_today := slaughtered,
                                ops := st.ops ++ [pr.2] })
              else
                .ok (some { sim := { sim with trucks := trucks.set tIdx truck },
                            candidates := cands, active_trucks := restTrucks,
                            slaughtered_today := st.slaughtered_today, ops := st.ops })

/-- The multi trip while loop of plan_day on explicit fuel. -/
def runLoop (env : Env) (day_index : ℤ) : ℕ → LoopSt → Except PlanErr LoopSt
  | 0, st => if loopCond st then .error .outOfFuel else .ok st
  | fuel + 1, st =>
    if loopCond st then
      match loopIter env day_index st with
      | .error e => .error e
      | .ok none => .ok st
      | .ok (some st1) => runLoop env day_index fuel st1
    else .ok st

/-- The growth tick of plan_day (lines 260 to 261): grow_pigs on every
farm in order, the draw indexed by day and farm position. -/
def applyGrowth (env : Env) (day_index : ℤ) : ℕ → List Farm → List Farm
  | _, [] => []
  | i, f :: rest => grow_pigs (env.gain day_index i) f :: applyGrowth env day_index (i + 1) rest

/-- Simulation.plan_day of solver.py (lines 253 to 434).  Returns the
updated simulation state and the daily log, none on a non working day.
Silent suppresses log recording only; the committed trip records are
produced either way and applied to the log unless silent, matching the
source where the three log mutations sit behind the silent flag. -/
def plan_day (env : Env) (sim : SimState) (day_index : ℤ) (silent : Bool) :
    Except PlanErr (SimState × Option DailyLog) :=
  let weekday := day_index % 7
  let day_num := day_index + 1
  let sim := { sim with farms := applyGrowth env day_index 0 sim.farms }
  if weekday ∈ WORK_DAYS then
    let candidates := computeCandidates sim.farms day_index
    let farms := scoreCandidates env sim.farms candidates
    let candidates := sortByUrgency farms candidates
    let trucks := sim.trucks.map Truck.reset_daily_stats
    let active_trucks := List.range trucks.length
    let st0 : LoopSt :=
      { sim := { sim with farms := farms, trucks := trucks },
        candidates := candidates, active_trucks := active_trucks,
        slaughtered_today := 0, ops := [] }
    match runLoop env day_index (st0.candidates.length + st0.active_trucks.length + 1) st0 with
    | .error e => .error e
    | .ok st =>
      let daily_log :=
        if silent then base_daily_log day_num else st.ops.foldl pushOp (base_daily_log day_num)
      .ok (st.sim, some daily_log)
  else
    .ok (sim, none)

/-- One raw farm record of scenario_data.json. -/
structure RawFarm where
  id : String
  lat : ℚ
  lon : ℚ
  inventory : ℤ
  avg_weight : ℚ
deriving Repr, DecidableEq

/-- Simulation.setup_scenario of solver.py: fresh farms from the raw data,
a fleet of num_small 10 ton trucks then num_large 20 ton trucks with ids
counted from 1, zeroed totals.  The module level distance cache survives
a reset, so it is passed through. -/
def setup_scenario (raw : List RawFarm) (cache : Cache) (num_small num_large : ℕ) :
    SimState :=
  { farms := raw.map (fun r => mkFarm r.id r.lat r.lon r.inventory r.avg_weight),
    trucks :=
      (List.range num_small).map (fun k => mkTruck (1 + k) 10 "small") ++
      (List.range num_large).map (fun k => mkTruck (1 + num_small + k) 20 "large"),
    total_profit := 0, total_penalties := 0, total_transport_cost := 0,
    cache := cache }

/-- The inner horizon loop of Simulation.optimize_fleet (lines 171 to 172):
fourteen calls of plan_day with silent true, logs discarded. -/
def run_horizon_silent (env : Env) (st : SimState) : Except PlanErr SimState :=
  (List.range SIMULATION_DAYS).foldlM
    (fun s d => do
      let r ← plan_day env s (d : ℤ) true
      .ok r.1)
    st

/-- The candidate fleet compositions of Simulation.optimize_fleet. -/
def fleet_scenarios : List (ℕ × ℕ) :=
  [(1, 0), (2, 0), (3, 0), (4, 0), (1, 1), (2, 1), (3, 1), (0, 1), (0, 2), (1, 2)]

/-- Simulation.optimize_fleet of solver.py (lines 154 to 187): for every
composition reset the scenario, run the fourteen day horizon silently,
subtract the fixed cost, keep the strictly best net profit (first wins
ties).  Returns the winning composition. -/
def optimize_fleet (env : Env) (raw : List RawFarm) (cache : Cache) :
    Except PlanErr (Option (ℕ × ℕ)) := do
  let r ← fleet_scenarios.foldlM
    (fun (acc : Option (ℕ × ℕ) × Option ℚ × Cache) sc => do
      let st := setup_scenario raw acc.2.2 sc.1 sc.2
      let st ← run_horizon_silent env st
      let fixed_costs := 2 * (st.trucks.length : ℚ) * FIXED_COST_TRUCK_WEEKLY
      let net_profit := st.total_profit - fixed_costs
      let is_best :=
        match acc.2.1 with
        | none => true
        | some m => net_profit > m
      if is_best then .ok (some sc, some net_profit, st.cache)
      else .ok (acc.1, acc.2.1, st.cache))
    (none, none, cache)
  .ok r.1

end AgroSolver

namespace AgroStore

/-- A pydantic field value of the farm payload. -/
inductive PyVal where
  | s (v : String)
  | i (v : ℤ)
  | q (v : ℚ)
deriving Repr, DecidableEq

/-- FarmCreate of app/schemas/farm.py: the FarmBase fields plus the caller
supplied farm_id. -/
structure FarmCreate where
  name : String
  lat : ℚ
  lon : ℚ
  inventory_pigs : ℤ
  avg_weight_kg : ℚ
  growth_rate_kg_per_week : ℚ
  age_weeks : ℤ
  price_per_kg : ℚ
  farm_id : String
deriving Repr, DecidableEq

/-- farm_in.model_dump(): every declared field, in declaration order, as a
keyword dictionary. -/
def FarmCreate.model_dump (f : FarmCreate) : List (String × PyVal) :=
  [("name", .s f.name), ("lat", .q f.lat), ("lon", .q f.lon),
   ("inventory_pigs", .i f.inventory_pigs), ("avg_weight_kg", .q f.avg_weight_kg),
   ("growth_rate_kg_per_week", .q f.growth_rate_kg_per_week),
   ("age_weeks", .i f.age_weeks), ("price_per_kg", .q f.price_per_kg),
   ("farm_id", .s f.farm_id)]

/-- The SQLAlchemy row of app/models/farm.py, as produced by a successful
keyword constructor call. -/
structure FarmRow where
  farm_id : String
  name : String
  lat : ℚ
  lon : ℚ
  inventory_pigs : ℤ
  avg_weight_kg : ℚ
  growth_rate_kg_per_week : ℚ
  age_weeks : ℤ
  price_per_kg : ℚ
deriving Repr, DecidableEq

inductive PyCallErr where
  | typeErrorDuplicateKwarg (key : String)
deriving Repr, DecidableEq

/-- create_farm of app/services/farm_service.py.  The service generates a
uuid (an outside input here) and calls Farm(farm_id=farm_id,
**farm_in.model_dump()).  Python raises TypeError at the call itself when a
key of the unpacked dictionary repeats an explicit keyword argument; that
check is performed first, exactly as CPython does. -/
def create_farm (generated_uuid : String) (farm_in : FarmCreate) :
    Except PyCallErr FarmRow :=
  let dump := farm_in.model_dump
  if "farm_id" ∈ dump.map Prod.fst then
    .error (.typeErrorDuplicateKwarg "farm_id")
  else
    .ok { farm_id := generated_uuid, name := farm_in.name, lat := farm_in.lat,
          lon := farm_in.lon, inventory_pigs := farm_in.inventory_pigs,
          avg_weight_kg := farm_in.avg_weight_kg,
          growth_rate_kg_per_week := farm_in.growth_rate_kg_per_week,
          age_weeks := farm_in.age_weeks, price_per_kg := farm_in.price_per_kg }

end AgroStore

namespace AgroSolver

/-- The all zero transcendental oracle: every haversine estimate collapses
to zero, the api always fails, batches are empty, growth draws are zero.
Used to evaluate the planner on concrete states. -/
def zeroEnv : Env :=
  { gain := fun _ _ => 0, batch := fun _ _ _ => [], api := fun _ _ _ _ => none,
    sin := fun _ => 0, cos := fun _ => 0, atan2 := fun _ _ => 0,
    sqrt := fun _ => 0, radians := fun q => q }

/-- How one farm record can evolve across the commit steps of a single
planning day: inventory never grows, a strict decrease stamps the day, and
an unchanged inventory leaves the visit stamp alone. -/
def FarmEvo (day : ℤ) (f0 f1 : Farm) : Prop :=
  f1.inventory ≤ f0.inventory ∧
  (f1.inventory < f0.inventory → f1.last_visit_day = day) ∧
  (f1.inventory = f0.inventory → f1.last_visit_day = f0.last_visit_day)

/-- Decreasing measure of the multi trip loop: candidates plus trucks in
the pool. -/
def loopMeasure (st : LoopSt) : ℕ := st.candidates.length + st.active_trucks.length

/-- The loop invariant of the multi trip while loop, relative to the farm
list at the start of the day and the day index. -/
def LoopInv (day : ℤ) (farms0 : List Farm) (st : LoopSt) : Prop :=
  st.sim.farms.length = farms0.length ∧
  (∀ i ∈ st.candidates, i < st.sim.farms.length) ∧
  (∀ f ∈ st.sim.farms, 0 < f.avg_weight) ∧
  (∀ t ∈ st.sim.trucks, t.daily_hours_used ≤ MAX_DAILY_HOURS) ∧
  (st.ops.map (fun op => op.pigs_delivered)).sum = st.slaughtered_today ∧
  0 ≤ st.slaughtered_today ∧ st.slaughtered_today ≤ SLAUGHTERHOUSE_CAPACITY ∧
  (∀ j, FarmEvo day (getFarmD farms0 j) (getFarmD st.sim.farms j))

/-- Concrete state for the zero load stop scenario: farm A is urgent enough
to seed the route and large enough to absorb the whole slaughter capacity,
farm B joins the route but its recomputed load is cut to zero by the
exhausted daily capacity. -/
def cexState : SimState :=
  { farms := [mkFarm "A" 42 3 2542 118, mkFarm "B" 42 3 50 110],
    trucks := [mkTruck 1 300 "large"],
    total_profit := 0, total_penalties := 0, total_transport_cost := 0, cache := [] }

/-- An oracle whose routing api always answers one hundred kilometres. -/
def apiEnv : Env := { zeroEnv with api := fun _ _ _ _ => some 100000 }

/-- One farm scenario for the fleet tournament experiment. -/
def rawOneFarm : List RawFarm :=
  [{ id := "F", lat := 42, lon := 3, inventory := 50, avg_weight := 110 }]

/-- The loop state built by plan_day at the start of a working day. -/
def initLoopSt (env : Env) (sim : SimState) (day_index : ℤ) : LoopSt :=
  let grown := applyGrowth env day_index 0 sim.farms
  let candidates := computeCandidates grown day_index
  let farms := scoreCandidates env grown candidates
  let candidates := sortByUrgency farms candidates
  let trucks := sim.trucks.map Truck.reset_daily_stats
  { sim := { sim with farms := farms, trucks := trucks },
    candidates := candidates, active_trucks := List.range trucks.length,
    slaughtered_today := 0, ops := [] }

/-- A simulation state with no farms and no trucks. -/
def emptyState : SimState :=
  { farms := [], trucks := [], total_profit := 0, total_penalties := 0,
    total_transport_cost := 0, cache := [] }

/-- A single farm, single truck state: five animals of ideal weight. -/
def oneFarmState : SimState :=
  { farms := [mkFarm "F" 0 0 5 110], trucks := [mkTruck 1 10 "small"],
    total_profit := 0, total_penalties := 0, total_transport_cost := 0, cache := [] }

/-- The state and log plan_day produces from oneFarmState on day zero under
the zero oracle. -/
def oneFarmResult : SimState × Option DailyLog :=
  ({ farms := [({ id := "F", lat := 0, lon := 0, inventory := 0, avg_weight := 110, last_visit_day := 0, weight_std := 5, urgency_score := 171.6 } : Farm)],
     trucks := [({ id := 1, capacity_kg := 10000, truck_type := "small", cost_per_km := 1.15, current_load_kg := 550, pigs_loaded := 5, route := [0], daily_hours_used := 1 } : Truck)],
     total_profit := 0, total_penalties := 0, total_transport_cost := 0,
     cache := [((0, 0, 41.9308, 2.2545), 0), ((41.9308, 2.2545, 0, 0), 0)] },
   some { day := 1, trucks_ops := [({ truck_id := 1, route := ["F"], trip_duration_hours := 1, distance_km := 0, pigs_delivered := 5, load_pct := 5.5, trip_cost := 0, revenue := 0, penalty := 0, profit := 0 } : TruckOp)], total_processed := 5, daily_profit := 0 })

end AgroSolver

/-- C6: the penalty ratio of the adapter and the per pig penalty branch of
calculate_revenue_batch agree, follow the piecewise specification (0 on
the ideal band 105 to 115, 0.15 on the mild bands, 0.20 otherwise), and
take the stated boundary values. -/
theorem C6_penalty_ratio_spec :
    (∀ w : ℚ, AgroSolver.penalty_ratio w = AgroSolver.batch_penalty_factor w) ∧
    (∀ w : ℚ,
      (105 ≤ w ∧ w ≤ 115 → AgroSolver.penalty_ratio w = 0) ∧
      ((100 ≤ w ∧ w < 105) ∨ (115 < w ∧ w ≤ 120) → AgroSolver.penalty_ratio w = 0.15) ∧
      (w < 100 ∨ 120 < w → AgroSolver.penalty_ratio w = 0.20)) ∧
    AgroSolver.penalty_ratio 105 = 0 ∧ AgroSolver.penalty_ratio 115 = 0 ∧
    AgroSolver.penalty_ratio (104.999 : ℚ) = 0.15 ∧
    AgroSolver.penalty_ratio (115.001 : ℚ) = 0.15 ∧
    AgroSolver.penalty_ratio (99.999 : ℚ) = 0.20 ∧
    AgroSolver.penalty_ratio (120.001 : ℚ) = 0.20 ∧
    AgroSolver.batch_penalty_factor 105 = 0 ∧ AgroSolver.batch_penalty_factor 115 = 0 ∧
    AgroSolver.batch_penalty_factor (104.999 : ℚ) = 0.15 ∧
    AgroSolver.batch_penalty_factor (115.001 : ℚ) = 0.15 ∧
    AgroSolver.batch_penalty_factor (99.999 : ℚ) = 0.20 ∧
    AgroSolver.batch_penalty_factor (120.001 : ℚ) = 0.20 := by
  refine ⟨?_, ?_, ?_, ?_, ?_, ?_, ?_, ?_, ?_, ?_, ?_, ?_, ?_, ?_⟩
  · intro w
    rcases lt_or_le w 100 with h | h
    · have nc1 : ¬(105 ≤ w ∧ w ≤ 115) := by rintro ⟨a, b⟩; linarith
      have nc2 : ¬(100 ≤ w ∧ w ≤ 120) := by rintro ⟨a, b⟩; linarith
      have nc3 : ¬((100 ≤ w ∧ w < 105) ∨ (115 < w ∧ w ≤ 120)) := by
        rintro (⟨a, b⟩ | ⟨a, b⟩) <;> linarith
      norm_num [AgroSolver.penalty_ratio, AgroSolver.batch_penalty_factor,
        AgroSolver.PENALTY_FACTOR_MILD, AgroSolver.PENALTY_FACTOR_HARSH,
        if_neg nc1, if_neg nc2, if_neg nc3]
    rcases lt_or_le w 105 with h2 | h2
    · have nc1 : ¬(105 ≤ w ∧ w ≤ 115) := by rintro ⟨a, b⟩; linarith
      have c2 : 100 ≤ w ∧ w ≤ 120 := ⟨h, by linarith⟩
      have c3 : (100 ≤ w ∧ w < 105) ∨ (115 < w ∧ w ≤ 120) := Or.inl ⟨h, h2⟩
      norm_num [AgroSolver.penalty_ratio, AgroSolver.batch_penalty_factor,
        AgroSolver.PENALTY_FACTOR_MILD, AgroSolver.PENALTY_FACTOR_HARSH,
        if_neg nc1, if_pos c2, if_pos c3]
    rcases le_or_lt w 115 with h3 | h3
    · have c1 : 105 ≤ w ∧ w ≤ 115 := ⟨h2, h3⟩
      simp only [AgroSolver.penalty_ratio, AgroSolver.batch_penalty_factor, if_pos c1]
    rcases le_or_lt w 120 with h4 | h4
    · have nc1 : ¬(105 ≤ w ∧ w ≤ 115) := by rintro ⟨a, b⟩; linarith
      have c2 : 100 ≤ w ∧ w ≤ 120 := ⟨h, h4⟩
      have c3 : (100 ≤ w ∧ w < 105) ∨ (115 < w ∧ w ≤ 120) := Or.inr ⟨h3, h4⟩
      norm_num [AgroSolver.penalty_ratio, AgroSolver.batch_penalty_factor,
        AgroSolver.PENALTY_FACTOR_MILD, AgroSolver.PENALTY_FACTOR_HARSH,
        if_neg nc1, if_pos c2, if_pos c3]
    · have nc1 : ¬(105 ≤ w ∧ w ≤ 115) := by rintro ⟨a, b⟩; linarith
      have nc2 : ¬(100 ≤ w ∧ w ≤ 120) := by rintro ⟨a, b⟩; linarith
      have nc3 : ¬((100 ≤ w ∧ w < 105) ∨ (115 < w ∧ w ≤ 120)) := by
        rintro (⟨a, b⟩ | ⟨a, b⟩) <;> linarith
      norm_num [AgroSolver.penalty_ratio, AgroSolver.batch_penalty_factor,
        AgroSolver.PENALTY_FACTOR_MILD, AgroSolver.PENALTY_FACTOR_HARSH,
        if_neg nc1, if_neg nc2, if_neg nc3]
  · intro w
    refine ⟨fun h => ?_, fun h => ?_, fun h => ?_⟩
    · simp only [AgroSolver.penalty_ratio, if_pos h]
    · have nc1 : ¬(105 ≤ w ∧ w ≤ 115) := by
        rcases h with ⟨a, b⟩ | ⟨a, b⟩ <;> rintro ⟨u, v⟩ <;> linarith
      have c2 : 100 ≤ w ∧ w ≤ 120 := by
        rcases h with ⟨a, b⟩ | ⟨a, b⟩ <;> exact ⟨by linarith, by linarith⟩
      simp only [AgroSolver.penalty_ratio, if_neg nc1, if_pos c2]
    · have nc1 : ¬(105 ≤ w ∧ w ≤ 115) := by
        rcases h with h | h <;> rintro ⟨u, v⟩ <;> linarith
      have nc2 : ¬(100 ≤ w ∧ w ≤ 120) := by
        rcases h with h | h <;> rintro ⟨u, v⟩ <;> linarith
      simp only [AgroSolver.penalty_ratio, if_neg nc1, if_neg nc2]
  all_goals norm_num [AgroSolver.penalty_ratio, AgroSolver.batch_penalty_factor,
    AgroSolver.PENALTY_FACTOR_MILD, AgroSolver.PENALTY_FACTOR_HARSH]

/-- Witness for C6 at concrete weights. -/
theorem C6_penalty_ratio_spec_witness :
    AgroSolver.penalty_ratio 110 = 0 ∧ AgroSolver.penalty_ratio 117 = 0.15 := by
  refine ⟨(C6_penalty_ratio_spec.2.1 110).1 (by norm_num), ?_⟩
  exact (C6_penalty_ratio_spec.2.1 117).2.1 (Or.inr (by norm_num))

/-- C7: the transport cost of a committed trip is distance times per km
rate times load factor; it vanishes on zero load and is monotone non
decreasing in distance, per km rate and load, for a truck of positive
capacity and non negative data. -/
theorem C7_trip_cost_spec :
    (∀ d r l c : ℚ, 0 < c → AgroSolver.trip_cost d r l c = d * r * (l / c)) ∧
    (∀ d r c : ℚ, AgroSolver.trip_cost d r 0 c = 0) ∧
    (∀ d1 d2 r l c : ℚ, 0 ≤ r → 0 ≤ l → 0 < c → d1 ≤ d2 →
      AgroSolver.trip_cost d1 r l c ≤ AgroSolver.trip_cost d2 r l c) ∧
    (∀ d r1 r2 l c : ℚ, 0 ≤ d → 0 ≤ l → 0 < c → r1 ≤ r2 →
      AgroSolver.trip_cost d r1 l c ≤ AgroSolver.trip_cost d r2 l c) ∧
    (∀ d r l1 l2 c : ℚ, 0 ≤ d → 0 ≤ r → 0 < c → l1 ≤ l2 →
      AgroSolver.trip_cost d r l1 c ≤ AgroSolver.trip_cost d r l2 c) := by
  have hfe : ∀ l c : ℚ, 0 < c → AgroSolver.load_factor l c = l / c := by
    intro l c hc
    simp only [AgroSolver.load_factor, if_pos hc]
  refine ⟨?_, ?_, ?_, ?_, ?_⟩
  · intro d r l c hc
    simp only [AgroSolver.trip_cost, hfe l c hc]
  · intro d r c
    simp [AgroSolver.trip_cost, AgroSolver.load_factor]
  · intro d1 d2 r l c hr hl hc hd
    simp only [AgroSolver.trip_cost, hfe l c hc]
    have h0 : 0 ≤ l / c := div_nonneg hl (le_of_lt hc)
    exact mul_le_mul_of_nonneg_right (mul_le_mul_of_nonneg_right hd hr) h0
  · intro d r1 r2 l c hd hl hc hr
    simp only [AgroSolver.trip_cost, hfe l c hc]
    have h0 : 0 ≤ l / c := div_nonneg hl (le_of_lt hc)
    exact mul_le_mul_of_nonneg_right (mul_le_mul_of_nonneg_left hr hd) h0
  · intro d r l1 l2 c hd hr hc hl
    simp only [AgroSolver.trip_cost, hfe l1 c hc, hfe l2 c hc]
    have h1 : l1 / c ≤ l2 / c := (div_le_div_right hc).mpr hl
    exact mul_le_mul_of_nonneg_left h1 (mul_nonneg hd hr)

/-- Witness for C7 at the concrete single farm trip of the specification
scenario: 13 km, small truck rate, 5500 kg load on a 10 ton truck. -/
theorem C7_trip_cost_spec_witness :
    AgroSolver.trip_cost 13 (1.15) 5500 10000 = 13 * 1.15 * (5500 / 10000) :=
  C7_trip_cost_spec.1 13 (1.15) 5500 10000 (by norm_num)

/-- C9: for every FarmCreate payload, create_farm of farm_service.py raises
TypeError: the generated uuid and the model_dump of the payload both pass
the keyword farm_id to the Farm constructor, so no farm row is returned at
all, let alone one carrying the caller supplied id. -/
theorem C9_create_farm_type_error :
    (∀ (generated_uuid : String) (farm_in : AgroStore.FarmCreate),
      AgroStore.create_farm generated_uuid farm_in =
        .error (.typeErrorDuplicateKwarg "farm_id")) ∧
    AgroStore.create_farm "3fa85f64-5717-4562-b3fc-2c963f66afa6"
      { name := "Granja Nova", lat := 41.9, lon := 2.25, inventory_pigs := 100,
        avg_weight_kg := 110, growth_rate_kg_per_week := 5.6, age_weeks := 20,
        price_per_kg := 1.56, farm_id := "FARM-001" } =
      .error (.typeErrorDuplicateKwarg "farm_id") := by
  constructor
  · intro u p
    rfl
  · rfl


namespace AgroSolver

theorem getD_set {α : Type} [Inhabited α] (l : List α) (i j : ℕ) (a : α) :
    (l.set i a).getD j default = if i = j ∧ i < l.length then a else l.getD j default := by
  rcases eq_or_ne i j with rfl | hne
  · by_cases h : i < l.length
    · simp [List.getD, List.getElem?_set, h]
    · have hj : l[i]? = none := List.getElem?_eq_none (by omega)
      simp [List.getD, List.getElem?_set, h, hj]
  · have hc : ¬(i = j ∧ i < l.length) := fun hc => hne hc.1
    rw [if_neg hc]
    simp [List.getD, List.getElem?_set, hne]

theorem updFarm_length (fs : List Farm) (i : ℕ) (g : Farm → Farm) :
    (updFarm fs i g).length = fs.length := by
  unfold updFarm
  cases h : fs[i]? <;> simp [h]

theorem getFarmD_updFarm (fs : List Farm) (i : ℕ) (g : Farm → Farm) (j : ℕ) :
    getFarmD (updFarm fs i g) j =
      if i = j ∧ i < fs.length then g (getFarmD fs i) else getFarmD fs j := by
  unfold updFarm getFarmD
  cases h : fs[i]? with
  | none =>
    have hlen : fs.length ≤ i := by
      by_contra hlt
      push_neg at hlt
      rw [List.getElem?_eq_getElem hlt] at h
      exact Option.noConfusion h
    have hc : ¬(i = j ∧ i < fs.length) := fun hc => by omega
    rw [if_neg hc]
  | some f =>
    obtain ⟨hlt, hval⟩ := List.getElem?_eq_some.mp h
    have hf : fs.getD i default = f := by
      rw [List.getD_eq_getElem fs default hlt, hval]
    rw [getD_set, hf]

theorem mem_updFarm {P : Farm → Prop} {fs : List Farm} {i : ℕ} {g : Farm → Farm}
    (hP : ∀ f ∈ fs, P f) (hg : ∀ f, P f → P (g f)) :
    ∀ f ∈ updFarm fs i g, P f := by
  intro f hf
  unfold updFarm at hf
  cases h : fs[i]? with
  | none => rw [h] at hf; exact hP f hf
  | some f0 =>
    rw [h] at hf
    rcases List.mem_or_eq_of_mem_set hf with hmem | rfl
    · exact hP f hmem
    · obtain ⟨hlt, hval⟩ := List.getElem?_eq_some.mp h
      exact hg f0 (hP f0 (hval ▸ List.getElem_mem hlt))

theorem mem_set_of {α : Type} {P : α → Prop} {l : List α} {i : ℕ} {b : α}
    (hP : ∀ a ∈ l, P a) (hb : P b) : ∀ a ∈ l.set i b, P a := by
  intro a ha
  rcases List.mem_or_eq_of_mem_set ha with h | rfl
  · exact hP a h
  · exact hb

theorem getFarmD_mem {fs : List Farm} {j : ℕ} (h : j < fs.length) : getFarmD fs j ∈ fs := by
  unfold getFarmD
  rw [List.getD_eq_getElem fs default h]
  exact List.getElem_mem h

theorem getTruckD_mem {ts : List Truck} {j : ℕ} (h : j < ts.length) : getTruckD ts j ∈ ts := by
  unfold getTruckD
  rw [List.getD_eq_getElem ts default h]
  exact List.getElem_mem h

theorem updTruck_length (ts : List Truck) (i : ℕ) (g : Truck → Truck) :
    (updTruck ts i g).length = ts.length := by
  unfold updTruck
  cases h : ts[i]? <;> simp [h]

theorem mem_updTruck {P : Truck → Prop} {ts : List Truck} {i : ℕ} {g : Truck → Truck}
    (hP : ∀ t ∈ ts, P t) (hg : ∀ t, P t → P (g t)) :
    ∀ t ∈ updTruck ts i g, P t := by
  intro t ht
  unfold updTruck at ht
  cases h : ts[i]? with
  | none => rw [h] at ht; exact hP t ht
  | some t0 =>
    rw [h] at ht
    rcases List.mem_or_eq_of_mem_set ht with hmem | rfl
    · exact hP t hmem
    · obtain ⟨hlt, hval⟩ := List.getElem?_eq_some.mp h
      exact hg t0 (hP t0 (hval ▸ List.getElem_mem hlt))

theorem FarmEvo.refl (day : ℤ) (f : Farm) : FarmEvo day f f := by
  unfold FarmEvo
  exact ⟨le_refl _, fun h => absurd h (lt_irrefl _), fun _ => rfl⟩

theorem FarmEvo.trans {day : ℤ} {f0 f1 f2 : Farm}
    (h01 : FarmEvo day f0 f1) (h12 : FarmEvo day f1 f2) : FarmEvo day f0 f2 := by
  obtain ⟨le01, lt01, eq01⟩ := h01
  obtain ⟨le12, lt12, eq12⟩ := h12
  refine ⟨le_trans le12 le01, fun h => ?_, fun h => ?_⟩
  · rcases lt_or_eq_of_le le12 with hlt | heq
    · exact lt12 hlt
    · rw [eq12 heq]
      exact lt01 (by omega)
  · have h2 : f2.inventory = f1.inventory := by omega
    rw [eq12 h2, eq01 (by omega)]

theorem pyIntDiv_ok {b : ℚ} (a : ℚ) (hb : b ≠ 0) :
    pyIntDiv a b = .ok (truncQ (a / b)) := by
  unfold pyIntDiv
  rw [if_neg hb]

theorem applyGrowth_length (env : Env) (day : ℤ) :
    ∀ (i : ℕ) (fs : List Farm), (applyGrowth env day i fs).length = fs.length := by
  intro i fs
  induction fs generalizing i with
  | nil => rfl
  | cons f rest ih => simp [applyGrowth, ih]

theorem getFarmD_applyGrowth (env : Env) (day : ℤ) :
    ∀ (fs : List Farm) (i j : ℕ),
      getFarmD (applyGrowth env day i fs) j =
        if j < fs.length then grow_pigs (env.gain day (i + j)) (getFarmD fs j)
        else default := by
  intro fs
  induction fs with
  | nil => intro i j; simp [applyGrowth, getFarmD]
  | cons f rest ih =>
    intro i j
    cases j with
    | zero => simp [applyGrowth, getFarmD]
    | succ j =>
      have hstep := ih (i + 1) j
      simp only [applyGrowth, getFarmD, List.getD_cons_succ, List.length_cons] at *
      rw [hstep]
      have harith : i + 1 + j = i + (j + 1) := by omega
      rw [harith]
      by_cases h : j < rest.length
      · rw [if_pos h, if_pos (by omega)]
      · rw [if_neg h, if_neg (by omega)]

theorem scoreOne_fields (env : Env) (fs : List Farm) (i : ℕ) :
    (scoreOne env fs i).length = fs.length ∧
    ∀ j, (getFarmD (scoreOne env fs i) j).inventory = (getFarmD fs j).inventory ∧
      (getFarmD (scoreOne env fs i) j).last_visit_day = (getFarmD fs j).last_visit_day ∧
      (getFarmD (scoreOne env fs i) j).avg_weight = (getFarmD fs j).avg_weight ∧
      (getFarmD (scoreOne env fs i) j).id = (getFarmD fs j).id := by
  unfold scoreOne
  refine ⟨updFarm_length fs i _, fun j => ?_⟩
  rw [getFarmD_updFarm]
  by_cases hc : i = j ∧ i < fs.length
  · rw [if_pos hc]
    obtain ⟨rfl, _⟩ := hc
    exact ⟨rfl, rfl, rfl, rfl⟩
  · rw [if_neg hc]
    exact ⟨rfl, rfl, rfl, rfl⟩

theorem scoreCandidates_fields (env : Env) :
    ∀ (cs : List ℕ) (fs : List Farm),
      (scoreCandidates env fs cs).length = fs.length ∧
      ∀ j, (getFarmD (scoreCandidates env fs cs) j).inventory = (getFarmD fs j).inventory ∧
        (getFarmD (scoreCandidates env fs cs) j).last_visit_day = (getFarmD fs j).last_visit_day ∧
        (getFarmD (scoreCandidates env fs cs) j).avg_weight = (getFarmD fs j).avg_weight ∧
        (getFarmD (scoreCandidates env fs cs) j).id = (getFarmD fs j).id := by
  intro cs
  induction cs with
  | nil => intro fs; exact ⟨rfl, fun j => ⟨rfl, rfl, rfl, rfl⟩⟩
  | cons c cs ih =>
    intro fs
    have step : scoreCandidates env fs (c :: cs) = scoreCandidates env (scoreOne env fs c) cs := rfl
    rw [step]
    obtain ⟨hlen1, hfield1⟩ := scoreOne_fields env fs c
    obtain ⟨hlen2, hfield2⟩ := ih (scoreOne env fs c)
    refine ⟨by rw [hlen2, hlen1], fun j => ?_⟩
    obtain ⟨a1, a2, a3, a4⟩ := hfield1 j
    obtain ⟨b1, b2, b3, b4⟩ := hfield2 j
    exact ⟨by rw [b1, a1], by rw [b2, a2], by rw [b3, a3], by rw [b4, a4]⟩

theorem mem_insertDesc {farms : List Farm} {i a : ℕ} :
    ∀ {l : List ℕ}, a ∈ insertDesc farms i l → a = i ∨ a ∈ l := by
  intro l
  induction l with
  | nil => intro h; simp [insertDesc] at h; exact Or.inl h
  | cons j rest ih =>
    intro h
    unfold insertDesc at h
    split_ifs at h with hcmp
    · rcases List.mem_cons.mp h with rfl | h2
      · exact Or.inl rfl
      · exact Or.inr h2
    · rcases List.mem_cons.mp h with rfl | h2
      · exact Or.inr (List.mem_cons_self _ _)
      · rcases ih h2 with h3 | h3
        · exact Or.inl h3
        · exact Or.inr (List.mem_cons_of_mem _ h3)

theorem mem_sortByUrgency {farms : List Farm} {a : ℕ} :
    ∀ {cs : List ℕ}, a ∈ sortByUrgency farms cs → a ∈ cs := by
  intro cs
  induction cs with
  | nil => intro h; exact absurd h (List.not_mem_nil a)
  | cons c rest ih =>
    intro h
    unfold sortByUrgency at h
    simp only [List.foldr_cons] at h
    rcases mem_insertDesc h with rfl | h2
    · exact List.mem_cons_self _ _
    · exact List.mem_cons_of_mem _ (ih h2)

theorem mem_computeCandidates {farms : List Farm} {day : ℤ} {i : ℕ} :
    i ∈ computeCandidates farms day ↔
      i < farms.length ∧ day - (getFarmD farms i).last_visit_day ≥ 7 ∧
        (getFarmD farms i).inventory > 0 := by
  unfold computeCandidates
  simp [List.mem_filter, List.mem_range, and_assoc]

end AgroSolver


namespace AgroSolver

theorem scanStep_cases (env : Env) (farms : List Farm) (cur : ℕ) (route_len : ℕ)
    (dhd dab used : ℚ) (acc : Option (ℚ × ℕ × ℚ × ℚ × ℚ)) (c : ℕ) :
    scanStep env farms cur route_len dhd dab used acc c = acc ∨
      ∃ comb leg ret det,
        scanStep env farms cur route_len dhd dab used acc c = some (comb, c, leg, ret, det) := by
  unfold scanStep
  dsimp only
  split_ifs
  all_goals
    first
    | exact Or.inl rfl
    | (cases acc with
       | none => exact Or.inr ⟨_, _, _, _, rfl⟩
       | some a =>
         dsimp only
         split_ifs with h
         · exact Or.inr ⟨_, _, _, _, rfl⟩
         · exact Or.inl rfl)

theorem scanBest_aux (env : Env) (farms : List Farm) (cur : ℕ) (route_len : ℕ)
    (dhd dab used : ℚ) :
    ∀ (cands : List ℕ) (acc : Option (ℚ × ℕ × ℚ × ℚ × ℚ)) (r : ℚ × ℕ × ℚ × ℚ × ℚ),
      cands.foldl (scanStep env farms cur route_len dhd dab used) acc = some r →
      acc = some r ∨ r.2.1 ∈ cands := by
  intro cands
  induction cands with
  | nil => intro acc r h; exact Or.inl h
  | cons c cs ih =>
    intro acc r h
    rw [List.foldl_cons] at h
    rcases ih _ r h with hacc | hmem
    · rcases scanStep_cases env farms cur route_len dhd dab used acc c with
        he | ⟨comb, leg, ret, det, he⟩
      · rw [he] at hacc
        exact Or.inl hacc
      · rw [he] at hacc
        have hc : r.2.1 = c := by
          have hr := Option.some.inj hacc
          rw [← hr]
        exact Or.inr (by rw [hc]; exact List.mem_cons_self _ _)
    · exact Or.inr (List.mem_cons_of_mem _ hmem)

theorem scanBest_mem {env : Env} {farms : List Farm} {cands : List ℕ} {cur : ℕ}
    {route_len : ℕ} {dhd dab used : ℚ} {r : ℚ × ℕ × ℚ × ℚ × ℚ}
    (h : scanBest env farms cands cur route_len dhd dab used = some r) :
    r.2.1 ∈ cands := by
  unfold scanBest at h
  rcases scanBest_aux env farms cur route_len dhd dab used cands none r h with habs | hm
  · exact Option.noConfusion habs
  · exact hm

theorem expand_spec (env : Env) (farms : List Farm)
    (hw : ∀ f ∈ farms, 0 < f.avg_weight) :
    ∀ (fuel : ℕ) (truck : Truck) (cands : List ℕ) (cur : ℕ) (dhd dab : ℚ) (sl : ℤ),
      (∀ i ∈ cands, i < farms.length) →
      ∃ out : Truck × List ℕ,
        expand env farms fuel truck cands cur dhd dab sl = .ok out ∧
        out.2.length + out.1.route.length = cands.length + truck.route.length ∧
        (∀ i ∈ out.2, i ∈ cands) ∧
        (∃ ext : List ℕ, out.1.route = truck.route ++ ext ∧ ∀ i ∈ ext, i ∈ cands) ∧
        out.1.daily_hours_used = truck.daily_hours_used ∧
        out.1.capacity_kg = truck.capacity_kg ∧
        out.1.id = truck.id ∧
        out.1.cost_per_km = truck.cost_per_km := by
  intro fuel
  induction fuel with
  | zero =>
    intro truck cands cur dhd dab sl hrng
    exact ⟨(truck, cands), rfl, rfl, fun i hi => hi,
      ⟨[], by simp, by simp⟩, rfl, rfl, rfl, rfl⟩
  | succ fuel ih =>
    intro truck cands cur dhd dab sl hrng
    unfold expand
    by_cases hcond :
        truck.route.length < MAX_STOPS ∧ truck.current_load_kg < truck.capacity_kg * 0.90
    · rw [if_pos hcond]
      cases hscan : scanBest env farms cands cur truck.route.length dhd dab
          truck.daily_hours_used with
      | none =>
        exact ⟨(truck, cands), rfl, rfl, fun i hi => hi,
          ⟨[], by simp, by simp⟩, rfl, rfl, rfl, rfl⟩
      | some r =>
        obtain ⟨comb, best, leg, ret, det⟩ := r
        have hbest : best ∈ cands := scanBest_mem hscan
        have hblt : best < farms.length := hrng best hbest
        have hbw : (getFarmD farms best).avg_weight ≠ 0 :=
          ne_of_gt (hw _ (getFarmD_mem hblt))
        have herase_len : (cands.erase best).length = cands.length - 1 :=
          List.length_erase_of_mem hbest
        have hcands_pos : 0 < cands.length := List.length_pos_of_mem hbest
        have hrng2 : ∀ i ∈ cands.erase best, i < farms.length :=
          fun i hi => hrng i (List.mem_of_mem_erase hi)
        dsimp only
        rw [pyIntDiv_ok _ hbw]
        dsimp only
        set ptk := min
          (min (truncQ ((truck.capacity_kg - truck.current_load_kg) /
              (getFarmD farms best).avg_weight))
            (getFarmD farms best).inventory)
          (SLAUGHTERHOUSE_CAPACITY - sl - truck.pigs_loaded) with hptk
        by_cases hp : ptk > 0
        · rw [if_pos hp]
          obtain ⟨out, hrun, hlen, hsub, ⟨ext, hext, hextmem⟩, hh, hcap, hid, hcost⟩ :=
            ih { truck with
                  current_load_kg :=
                    truck.current_load_kg + (ptk : ℚ) * (getFarmD farms best).avg_weight,
                  pigs_loaded := truck.pigs_loaded + ptk,
                  route := truck.route ++ [best] }
              (cands.erase best) best ret (dab + leg) sl hrng2
          dsimp only at hlen hext
          refine ⟨out, hrun, ?_, fun i hi => List.mem_of_mem_erase (hsub i hi),
            ⟨best :: ext, ?_, ?_⟩, hh, hcap, hid, hcost⟩
          · simp only [List.length_append, List.length_cons, List.length_nil] at hlen
            omega
          · rw [hext]
            simp
          · intro i hi
            rcases List.mem_cons.mp hi with rfl | h2
            · exact hbest
            · exact List.mem_of_mem_erase (hextmem i h2)
        · rw [if_neg hp]
          refine ⟨_, rfl, ?_, fun i hi => List.mem_of_mem_erase hi,
            ⟨[best], rfl, ?_⟩, rfl, rfl, rfl, rfl⟩
          · dsimp only
            simp only [List.length_append, List.length_cons, List.length_nil]
            omega
          · intro i hi
            rcases List.mem_cons.mp hi with rfl | h2
            · exact hbest
            · exact absurd h2 (List.not_mem_nil i)
    · rw [if_neg hcond]
      exact ⟨(truck, cands), rfl, rfl, fun i hi => hi,
        ⟨[], by simp, by simp⟩, rfl, rfl, rfl, rfl⟩

theorem validateRoute_spec (env : Env) (farms : List Farm) (used : ℚ) :
    ∀ (fuel : ℕ) (route cands : List ℕ) (cache : Cache), route.length ≤ fuel →
      (validateRoute env farms used fuel route cands cache).2.2.1.length +
          (validateRoute env farms used fuel route cands cache).2.1.length =
        cands.length + route.length ∧
      (∀ i ∈ (validateRoute env farms used fuel route cands cache).2.1, i ∈ route) ∧
      (∀ i ∈ (validateRoute env farms used fuel route cands cache).2.2.1,
        i ∈ cands ∨ i ∈ route) ∧
      ((validateRoute env farms used fuel route cands cache).1 = true →
        (validateRoute env farms used fuel route cands cache).2.1 ≠ [] ∧
        used + (validateRoute env farms used fuel route cands cache).2.2.2.2.1 ≤
          MAX_DAILY_HOURS) ∧
      ((validateRoute env farms used fuel route cands cache).1 = false →
        (validateRoute env farms used fuel route cands cache).2.1 = []) := by
  intro fuel
  induction fuel with
  | zero =>
    intro route cands cache hle
    have hroute : route = [] := List.length_eq_zero.mp (by omega)
    subst hroute
    refine ⟨rfl, by simp [validateRoute], by simp [validateRoute], ?_, by simp [validateRoute]⟩
    intro hacc
    simp [validateRoute] at hacc
  | succ fuel ih =>
    intro route cands cache hle
    cases route with
    | nil =>
      refine ⟨rfl, by simp [validateRoute], by simp [validateRoute], ?_, by simp [validateRoute]⟩
      intro hacc
      simp [validateRoute] at hacc
    | cons a rest =>
      unfold validateRoute
      dsimp only
      by_cases hfit :
          used + estimate_trip_time (computeTripDist env farms cache (a :: rest)).1
            (a :: rest).length ≤ MAX_DAILY_HOURS
      · rw [if_pos hfit]
        refine ⟨rfl, fun i hi => hi, fun i hi => Or.inl hi,
          fun _ => ⟨List.cons_ne_nil a rest, hfit⟩, fun habs => Bool.noConfusion habs⟩
      · rw [if_neg hfit]
        have hlen2 : (a :: rest).dropLast.length ≤ fuel := by
          rw [List.length_dropLast]
          simp only [List.length_cons] at hle ⊢
          omega
        obtain ⟨l1, l2, l3, l4, l5⟩ := ih (a :: rest).dropLast
          ((a :: rest).getLast (List.cons_ne_nil a rest) :: cands)
          (computeTripDist env farms cache (a :: rest)).2 hlen2
        have hlast : (a :: rest).getLast (List.cons_ne_nil a rest) ∈ a :: rest :=
          List.getLast_mem (List.cons_ne_nil a rest)
        refine ⟨?_, ?_, ?_, l4, l5⟩
        · rw [List.length_dropLast] at l1
          simp only [List.length_cons] at l1 ⊢
          omega
        · intro i hi
          exact (List.dropLast_sublist (a :: rest)).mem (l2 i hi)
        · intro i hi
          rcases l3 i hi with hc | hr
          · rcases List.mem_cons.mp hc with rfl | hc2
            · exact Or.inr hlast
            · exact Or.inl hc2
          · exact Or.inr ((List.dropLast_sublist (a :: rest)).mem hr)

theorem commitLoads_spec (day sl : ℤ) :
    ∀ (route : List ℕ) (farms : List Farm) (rem : ℚ) (fin : ℤ) (load : ℚ),
      (∀ i ∈ route, i < farms.length) → (∀ f ∈ farms, 0 < f.avg_weight) →
      ∃ out : List Farm × ℚ × ℤ × ℚ,
        commitLoads day sl farms route rem fin load = .ok out ∧
        out.1.length = farms.length ∧
        (∀ f ∈ out.1, 0 < f.avg_weight) ∧
        fin ≤ out.2.2.1 ∧
        (sl + fin ≤ SLAUGHTERHOUSE_CAPACITY → sl + out.2.2.1 ≤ SLAUGHTERHOUSE_CAPACITY) ∧
        (∀ j, FarmEvo day (getFarmD farms j) (getFarmD out.1 j)) ∧
        (∀ j, (getFarmD out.1 j).avg_weight = (getFarmD farms j).avg_weight) := by
  intro route
  induction route with
  | nil =>
    intro farms rem fin load hrng hw
    exact ⟨(farms, rem, fin, load), rfl, rfl, hw, le_refl _, fun h => h,
      fun j => FarmEvo.refl day _, fun j => rfl⟩
  | cons i rest ih =>
    intro farms rem fin load hrng hw
    have hilt : i < farms.length := hrng i (List.mem_cons_self i rest)
    have hiw : (getFarmD farms i).avg_weight ≠ 0 := ne_of_gt (hw _ (getFarmD_mem hilt))
    unfold commitLoads
    dsimp only
    rw [pyIntDiv_ok _ hiw]
    dsimp only
    set ptk := min
      (min (truncQ (rem / (getFarmD farms i).avg_weight)) (getFarmD farms i).inventory)
      (SLAUGHTERHOUSE_CAPACITY - sl - fin) with hptk
    have hple : ptk ≤ SLAUGHTERHOUSE_CAPACITY - sl - fin := min_le_right _ _
    by_cases hp : ptk > 0
    · rw [if_pos hp]
      have hrng2 : ∀ j ∈ rest, j < (updFarm farms i (fun g =>
          { g with inventory := g.inventory - ptk, last_visit_day := day })).length := by
        intro j hj
        rw [updFarm_length]
        exact hrng j (List.mem_cons_of_mem _ hj)
      have hw2 : ∀ f ∈ updFarm farms i (fun g =>
          { g with inventory := g.inventory - ptk, last_visit_day := day }), 0 < f.avg_weight :=
        mem_updFarm hw (fun f hf => hf)
      obtain ⟨out, hrun, hlen, hwout, hfin, hcap, hevo, hweq⟩ := ih _ _ _ _ hrng2 hw2
      refine ⟨out, hrun, by rw [hlen, updFarm_length], hwout, by omega, fun hs => hcap (by omega),
        fun j => FarmEvo.trans ?_ (hevo j), fun j => ?_⟩
      · rw [getFarmD_updFarm]
        by_cases hc : i = j ∧ i < farms.length
        · rw [if_pos hc]
          obtain ⟨rfl, hlt⟩ := hc
          have hle1 : (getFarmD farms i).inventory - ptk ≤ (getFarmD farms i).inventory := by
            omega
          exact ⟨hle1, fun _ => rfl,
            fun hinv => absurd hinv (by dsimp only; omega)⟩
        · rw [if_neg hc]
          exact FarmEvo.refl day _
      · rw [hweq j, getFarmD_updFarm]
        by_cases hc : i = j ∧ i < farms.length
        · rw [if_pos hc]
          obtain ⟨rfl, _⟩ := hc
          rfl
        · rw [if_neg hc]
    · rw [if_neg hp]
      exact ih _ _ _ _ (fun j hj => hrng j (List.mem_cons_of_mem _ hj)) hw

theorem process_spec (env : Env) (sim : SimState) (truck : Truck) (d t : ℚ)
    (h : ¬truck.route.length = 0) :
    ∃ out : SimState × TruckOp, process_truck_trip env sim truck d t = .ok out ∧
      out.1.farms = sim.farms ∧ out.1.trucks = sim.trucks ∧ out.1.cache = sim.cache ∧
      out.2.pigs_delivered = truck.pigs_loaded := by
  unfold process_truck_trip
  dsimp only
  rw [if_neg h]
  exact ⟨_, rfl, rfl, rfl, rfl, rfl⟩

theorem getTruckD_updTruck_self (ts : List Truck) (i : ℕ) (g : Truck → Truck) :
    getTruckD (updTruck ts i g) i =
      if i < ts.length then g (getTruckD ts i) else default := by
  unfold updTruck getTruckD
  cases h : ts[i]? with
  | none =>
    have hlen : ts.length ≤ i := by
      by_contra hlt
      push_neg at hlt
      rw [List.getElem?_eq_getElem hlt] at h
      exact Option.noConfusion h
    rw [if_neg (by omega)]
    simp [List.getD, List.getElem?_eq_none hlen]
  | some t =>
    obtain ⟨hlt, hval⟩ := List.getElem?_eq_some.mp h
    have ht : ts.getD i default = t := by
      rw [List.getD_eq_getElem ts default hlt, hval]
    rw [getD_set, ht, if_pos ⟨rfl, hlt⟩, if_pos hlt]

theorem pyIntDiv_cases {a b : ℚ} {r : Except PlanErr ℤ}
    (h : pyIntDiv a b = r) (hb : b ≠ 0) : r = .ok (truncQ (a / b)) := by
  rw [← h, pyIntDiv_ok _ hb]

theorem expand_spec2 {env : Env} {farms : List Farm} {fuel : ℕ} {truck : Truck}
    {cands : List ℕ} {cur : ℕ} {dhd dab : ℚ} {sl : ℤ} {r : Except PlanErr (Truck × List ℕ)}
    (h : expand env farms fuel truck cands cur dhd dab sl = r)
    (hw : ∀ f ∈ farms, 0 < f.avg_weight) (hrng : ∀ i ∈ cands, i < farms.length) :
    ∃ out : Truck × List ℕ, r = .ok out ∧
      out.2.length + out.1.route.length = cands.length + truck.route.length ∧
      (∀ i ∈ out.2, i ∈ cands) ∧
      (∃ ext : List ℕ, out.1.route = truck.route ++ ext ∧ ∀ i ∈ ext, i ∈ cands) ∧
      out.1.daily_hours_used = truck.daily_hours_used ∧
      out.1.capacity_kg = truck.capacity_kg ∧
      out.1.id = truck.id ∧
      out.1.cost_per_km = truck.cost_per_km := by
  rw [← h]
  exact expand_spec env farms hw fuel truck cands cur dhd dab sl hrng

theorem commitLoads_spec2 {day sl : ℤ} {route : List ℕ} {farms : List Farm} {rem : ℚ}
    {fin : ℤ} {load : ℚ} {r : Except PlanErr (List Farm × ℚ × ℤ × ℚ)}
    (h : commitLoads day sl farms route rem fin load = r)
    (hrng : ∀ i ∈ route, i < farms.length) (hw : ∀ f ∈ farms, 0 < f.avg_weight) :
    ∃ out : List Farm × ℚ × ℤ × ℚ, r = .ok out ∧
      out.1.length = farms.length ∧
      (∀ f ∈ out.1, 0 < f.avg_weight) ∧
      fin ≤ out.2.2.1 ∧
      (sl + fin ≤ SLAUGHTERHOUSE_CAPACITY → sl + out.2.2.1 ≤ SLAUGHTERHOUSE_CAPACITY) ∧
      (∀ j, FarmEvo day (getFarmD farms j) (getFarmD out.1 j)) ∧
      (∀ j, (getFarmD out.1 j).avg_weight = (getFarmD farms j).avg_weight) := by
  rw [← h]
  exact commitLoads_spec day sl route farms rem fin load hrng hw

theorem process_spec2 {env : Env} {sim : SimState} {truck : Truck} {d t : ℚ}
    {r : Except PlanErr (SimState × TruckOp)}
    (h : process_truck_trip env sim truck d t = r) (hne : ¬truck.route.length = 0) :
    ∃ out : SimState × TruckOp, r = .ok out ∧
      out.1.farms = sim.farms ∧ out.1.trucks = sim.trucks ∧ out.1.cache = sim.cache ∧
      out.2.pigs_delivered = truck.pigs_loaded := by
  rw [← h]
  exact process_spec env sim truck d t hne

theorem loopIter_master (env : Env) (day : ℤ) (farms0 : List Farm) (st : LoopSt)
    (hinv : LoopInv day farms0 st) :
    ∃ out : Option LoopSt, loopIter env day st = .ok out ∧
      ∀ st1, out = some st1 → LoopInv day farms0 st1 ∧ loopMeasure st1 < loopMeasure st := by
  unfold LoopInv at hinv
  obtain ⟨sim, cands, acts, sl, ops⟩ := st
  dsimp only at hinv
  obtain ⟨hlen, hrng, hwf, hhrs, hops, hsl0, hslcap, hevo⟩ := hinv
  unfold loopIter
  dsimp only
  cases cands with
  | nil => exact ⟨none, rfl, fun st1 h => Option.noConfusion h⟩
  | cons c0 cs =>
    dsimp only
    by_cases hscore : (getFarmD sim.farms c0).urgency_score < 0
    · rw [if_pos hscore]
      exact ⟨none, rfl, fun st1 h => Option.noConfusion h⟩
    · rw [if_neg hscore]
      cases acts with
      | nil => exact ⟨none, rfl, fun st1 h => Option.noConfusion h⟩
      | cons tIdx restT =>
        dsimp only
        have hwt : ∀ t ∈ updTruck sim.trucks tIdx Truck.reset_route,
            t.daily_hours_used ≤ MAX_DAILY_HOURS :=
          mem_updTruck hhrs (fun t ht => ht)
        have htr_route : (getTruckD (updTruck sim.trucks tIdx Truck.reset_route) tIdx).route = [] := by
          rw [getTruckD_updTruck_self]
          split_ifs <;> rfl
        have htr_hours : (getTruckD (updTruck sim.trucks tIdx Truck.reset_route) tIdx).daily_hours_used ≤
            MAX_DAILY_HOURS := by
          rw [getTruckD_updTruck_self]
          split_ifs with hlt2
          · show (getTruckD sim.trucks tIdx).daily_hours_used ≤ MAX_DAILY_HOURS
            exact hhrs _ (getTruckD_mem hlt2)
          · show (0 : ℚ) ≤ MAX_DAILY_HOURS
            norm_num [MAX_DAILY_HOURS]
        have hrng_cs : ∀ i ∈ cs, i < sim.farms.length :=
          fun i hi => hrng i (List.mem_cons_of_mem _ hi)
        have hc0 : c0 < sim.farms.length := hrng c0 (List.mem_cons_self c0 cs)
        by_cases hhour :
            (getTruckD (updTruck sim.trucks tIdx Truck.reset_route) tIdx).daily_hours_used ≥
              MAX_DAILY_HOURS
        · rw [if_pos hhour]
          refine ⟨some _, rfl, fun st1 h1 => ?_⟩
          obtain rfl := Option.some.inj h1
          constructor
          · exact ⟨hlen, hrng, hwf, hwt, hops, hsl0, hslcap, hevo⟩
          · simp only [loopMeasure, List.length_cons]
            omega
        · rw [if_neg hhour]
          have hcw : (getFarmD sim.farms c0).avg_weight ≠ 0 :=
            ne_of_gt (hwf _ (getFarmD_mem hc0))
          split
          next e heq =>
            exact absurd (pyIntDiv_cases heq hcw) (fun h => Except.noConfusion h)
          next pigs_cap heq =>
            split
            next e heq2 =>
              obtain ⟨out2, hout2, _⟩ := expand_spec2 heq2 hwf hrng_cs
              exact absurd hout2 (fun h => Except.noConfusion h)
            next ec heq2 =>
              obtain ⟨out2, hout2, e_len, e_sub, ⟨ext, hext, hextmem⟩, e_h, e_cap, e_id, e_cost⟩ :=
                expand_spec2 heq2 hwf hrng_cs
              have hoe : ec = out2 := Except.ok.inj hout2
              subst hoe
              dsimp only at e_len hext e_h e_cap
              rw [htr_route] at e_len hext
              simp only [List.length_append, List.length_nil, List.length_cons,
                List.nil_append, List.singleton_append] at e_len hext
              set v := validateRoute env sim.farms ec.1.daily_hours_used
                ec.1.route.length ec.1.route ec.2 sim.cache with hv
              obtain ⟨v1, v2, v3, v4, v5⟩ := validateRoute_spec env sim.farms
                ec.1.daily_hours_used ec.1.route.length ec.1.route ec.2 sim.cache (le_refl _)
              rw [← hv] at v1 v2 v3 v4 v5
              have hroutemem : ∀ i ∈ v.2.1, i < sim.farms.length := by
                intro i hi
                have hr := v2 i hi
                rw [hext] at hr
                rcases List.mem_cons.mp hr with rfl | hr2
                · exact hc0
                · exact hrng_cs i (hextmem i hr2)
              have hcandmem : ∀ i ∈ v.2.2.1, i < sim.farms.length := by
                intro i hi
                rcases v3 i hi with hi2 | hi2
                · exact hrng_cs i (e_sub i hi2)
                · rw [hext] at hi2
                  rcases List.mem_cons.mp hi2 with rfl | hr2
                  · exact hc0
                  · exact hrng_cs i (hextmem i hr2)
              split
              next hacc =>
                obtain ⟨haccb, hacclen⟩ := hacc
                split
                next e heq3 =>
                  obtain ⟨out3, hout3, _⟩ := commitLoads_spec2 heq3 hroutemem hwf
                  exact absurd hout3 (fun h => Except.noConfusion h)
                next cl heq3 =>
                  obtain ⟨out3, hout3, cllen, clw, clfin, clcap, clevo, clweq⟩ :=
                    commitLoads_spec2 heq3 hroutemem hwf
                  have hoc : cl = out3 := Except.ok.inj hout3
                  subst hoc
                  split
                  next e heq4 =>
                    obtain ⟨out4, hout4, _⟩ := process_spec2 heq4 (by
                      dsimp only
                      omega)
                    exact absurd hout4 (fun h => Except.noConfusion h)
                  next pr heq4 =>
                    obtain ⟨out4, hout4, prfarms, prtrucks, prcache, prpigs⟩ :=
                      process_spec2 heq4 (by
                        dsimp only
                        omega)
                    have hop : pr = out4 := Except.ok.inj hout4
                    subst hop
                    dsimp only at prfarms prtrucks prcache prpigs
                    refine ⟨some _, rfl, fun st1 h1 => ?_⟩
                    obtain rfl := Option.some.inj h1
                    constructor
                    · refine ⟨?_, ?_, ?_, ?_, ?_, ?_, ?_, ?_⟩
                      · dsimp only
                        rw [prfarms, cllen, hlen]
                      · dsimp only
                        intro i hi
                        rw [prfarms, cllen]
                        exact hcandmem i hi
                      · dsimp only
                        rw [prfarms]
                        exact clw
                      · dsimp only
                        refine mem_set_of hwt ?_
                        show ec.1.daily_hours_used + v.2.2.2.2.1 ≤ MAX_DAILY_HOURS
                        exact (v4 haccb).2
                      · dsimp only
                        simp only [List.map_append, List.map_cons, List.map_nil,
                          List.sum_append, List.sum_cons, List.sum_nil, add_zero]
                        rw [hops]
                        have hpp : pr.2.pigs_delivered = cl.2.2.1 := prpigs
                        rw [hpp]
                      · dsimp only
                        omega
                      · dsimp only
                        exact clcap (by omega)
                      · dsimp only
                        intro j
                        rw [prfarms]
                        exact FarmEvo.trans (hevo j) (clevo j)
                    · simp only [loopMeasure, List.length_cons, List.length_append,
                        List.length_nil]
                      have hv1 := v1
                      omega
              next hacc =>
                refine ⟨some _, rfl, fun st1 h1 => ?_⟩
                obtain rfl := Option.some.inj h1
                constructor
                · refine ⟨hlen, ?_, hwf, ?_, hops, hsl0, hslcap, hevo⟩
                  · dsimp only
                    exact hcandmem
                  · dsimp only
                    refine mem_set_of hwt ?_
                    show ec.1.daily_hours_used ≤ MAX_DAILY_HOURS
                    rw [e_h]
                    exact htr_hours
                · simp only [loopMeasure, List.length_cons]
                  have hv1 := v1
                  omega

theorem runLoop_master (env : Env) (day : ℤ) (farms0 : List Farm) :
    ∀ (fuel : ℕ) (st : LoopSt), LoopInv day farms0 st → loopMeasure st < fuel →
      ∃ st1, runLoop env day fuel st = .ok st1 ∧ LoopInv day farms0 st1 := by
  intro fuel
  induction fuel with
  | zero =>
    intro st hinv hm
    exact absurd hm (Nat.not_lt_zero _)
  | succ fuel ih =>
    intro st hinv hm
    unfold runLoop
    by_cases hcond : loopCond st = true
    · rw [if_pos hcond]
      obtain ⟨out, hout, hprop⟩ := loopIter_master env day farms0 st hinv
      rw [hout]
      cases out with
      | none => exact ⟨st, rfl, hinv⟩
      | some st1 =>
        obtain ⟨hinv1, hm1⟩ := hprop st1 rfl
        exact ih st1 hinv1 (by omega)
    · rw [if_neg hcond]
      exact ⟨st, rfl, hinv⟩

theorem forall_mem_of_getFarmD {P : Farm → Prop} {fs : List Farm}
    (h : ∀ j, j < fs.length → P (getFarmD fs j)) : ∀ f ∈ fs, P f := by
  intro f hf
  obtain ⟨i, hi, rfl⟩ := List.mem_iff_getElem.mp hf
  have := h i hi
  rwa [getFarmD, List.getD_eq_getElem fs default hi] at this

theorem foldl_pushOp (ops : List TruckOp) : ∀ base : DailyLog,
    (ops.foldl pushOp base).trucks_ops = base.trucks_ops ++ ops ∧
    (ops.foldl pushOp base).total_processed =
      base.total_processed + (ops.map (fun op => op.pigs_delivered)).sum := by
  induction ops with
  | nil => intro base; simp
  | cons op rest ih =>
    intro base
    rw [List.foldl_cons]
    obtain ⟨h1, h2⟩ := ih (pushOp base op)
    refine ⟨?_, ?_⟩
    · rw [h1]
      simp [pushOp]
    · rw [h2]
      simp [pushOp]
      ring

theorem initLoopSt_inv (env : Env) (sim : SimState) (day : ℤ)
    (hw : ∀ f ∈ applyGrowth env day 0 sim.farms, 0 < f.avg_weight) :
    LoopInv day (initLoopSt env sim day).sim.farms (initLoopSt env sim day) := by
  unfold LoopInv initLoopSt
  dsimp only
  obtain ⟨hslen, hsfield⟩ := scoreCandidates_fields env
    (computeCandidates (applyGrowth env day 0 sim.farms) day) (applyGrowth env day 0 sim.farms)
  refine ⟨rfl, ?_, ?_, ?_, rfl, le_refl 0, by norm_num [SLAUGHTERHOUSE_CAPACITY],
    fun j => FarmEvo.refl day _⟩
  · intro i hi
    have hic := mem_sortByUrgency hi
    have := (mem_computeCandidates.mp hic).1
    rw [hslen]
    exact this
  · refine forall_mem_of_getFarmD (fun j hj => ?_)
    rw [(hsfield j).2.2.1]
    rw [hslen] at hj
    exact hw _ (getFarmD_mem hj)
  · intro t ht
    obtain ⟨t0, _, rfl⟩ := List.mem_map.mp ht
    show (0 : ℚ) ≤ MAX_DAILY_HOURS
    norm_num [MAX_DAILY_HOURS]

theorem plan_day_work (env : Env) (sim : SimState) (day : ℤ) (silent : Bool)
    (hw : ∀ f ∈ applyGrowth env day 0 sim.farms, 0 < f.avg_weight)
    (hwd : (day % 7) ∈ WORK_DAYS) :
    ∃ st1 : LoopSt,
      plan_day env sim day silent =
        .ok (st1.sim, some (if silent then base_daily_log (day + 1)
          else st1.ops.foldl pushOp (base_daily_log (day + 1)))) ∧
      LoopInv day (initLoopSt env sim day).sim.farms st1 := by
  obtain ⟨st1, hrun, hinv1⟩ := runLoop_master env day (initLoopSt env sim day).sim.farms
    ((initLoopSt env sim day).candidates.length + (initLoopSt env sim day).active_trucks.length + 1)
    (initLoopSt env sim day) (initLoopSt_inv env sim day hw)
    (by simp [loopMeasure])
  refine ⟨st1, ?_, hinv1⟩
  unfold plan_day
  dsimp only
  rw [if_pos hwd]
  have hrun2 := hrun
  unfold initLoopSt at hrun2
  dsimp only at hrun2
  rw [hrun2]

theorem grow_pigs_inventory (g : ℚ) (f : Farm) : (grow_pigs g f).inventory = f.inventory := rfl

theorem grow_pigs_last (g : ℚ) (f : Farm) :
    (grow_pigs g f).last_visit_day = f.last_visit_day := rfl

theorem workday_iff (day : ℤ) : (day % 7 ∈ WORK_DAYS) ↔ ¬(day % 7 = 5 ∨ day % 7 = 6) := by
  have h0 : 0 ≤ day % 7 := Int.emod_nonneg day (by norm_num)
  have h7 : day % 7 < 7 := Int.emod_lt_of_pos day (by norm_num)
  simp only [WORK_DAYS, List.mem_cons, List.not_mem_nil, or_false]
  omega

end AgroSolver

/-- C1: on every valid state (positive mean weights, also after the daily
growth draw, and positive truck capacities) and every day index, plan_day
returns without an exception and without running out of fuel; the result
carries a daily log exactly on working days and nothing on Saturday and
Sunday, that is when the day index mod seven is five or six. -/
theorem C1_plan_day_total (env : AgroSolver.Env) (sim : AgroSolver.SimState) (day : ℤ)
    (silent : Bool)
    (hw0 : ∀ f ∈ sim.farms, 0 < f.avg_weight)
    (hcap : ∀ t ∈ sim.trucks, 0 < t.capacity_kg)
    (hw : ∀ f ∈ AgroSolver.applyGrowth env day 0 sim.farms, 0 < f.avg_weight) :
    ∃ r : AgroSolver.SimState × Option AgroSolver.DailyLog,
      AgroSolver.plan_day env sim day silent = .ok r ∧
      ((day % 7 = 5 ∨ day % 7 = 6) ↔ r.2 = none) := by
  by_cases hwd : (day % 7) ∈ AgroSolver.WORK_DAYS
  · obtain ⟨st1, hok, _⟩ := AgroSolver.plan_day_work env sim day silent hw hwd
    refine ⟨_, hok, ?_⟩
    constructor
    · intro h56
      exact absurd h56 ((AgroSolver.workday_iff day).mp hwd)
    · intro hnone
      exact Option.noConfusion hnone
  · refine ⟨({ sim with farms := AgroSolver.applyGrowth env day 0 sim.farms }, none), ?_, ?_⟩
    · unfold AgroSolver.plan_day
      dsimp only
      rw [if_neg hwd]
    · constructor
      · intro _
        rfl
      · intro _
        by_contra h56
        exact hwd ((AgroSolver.workday_iff day).mpr h56)

/-- Witness for C1 on the empty state at day zero. -/
theorem C1_plan_day_total_witness :
    ∃ r : AgroSolver.SimState × Option AgroSolver.DailyLog,
      AgroSolver.plan_day AgroSolver.zeroEnv AgroSolver.emptyState 0 false = .ok r ∧
      (((0 : ℤ) % 7 = 5 ∨ (0 : ℤ) % 7 = 6) ↔ r.2 = none) :=
  C1_plan_day_total AgroSolver.zeroEnv AgroSolver.emptyState 0 false
    (by intro f hf; exact absurd hf (List.not_mem_nil f))
    (by intro t ht; exact absurd ht (List.not_mem_nil t))
    (by intro f hf; exact absurd hf (List.not_mem_nil f))

/-- C2: in every daily log produced by plan_day the recorded trip records
sum to the total processed count, and that total never exceeds the daily
slaughterhouse capacity of two thousand animals. -/
theorem C2_daily_capacity (env : AgroSolver.Env) (sim : AgroSolver.SimState) (day : ℤ)
    (silent : Bool) (r : AgroSolver.SimState × Option AgroSolver.DailyLog)
    (l : AgroSolver.DailyLog)
    (hw : ∀ f ∈ AgroSolver.applyGrowth env day 0 sim.farms, 0 < f.avg_weight)
    (hok : AgroSolver.plan_day env sim day silent = .ok r) (hl : r.2 = some l) :
    (l.trucks_ops.map (fun op => op.pigs_delivered)).sum = l.total_processed ∧
    l.total_processed ≤ AgroSolver.SLAUGHTERHOUSE_CAPACITY := by
  by_cases hwd : (day % 7) ∈ AgroSolver.WORK_DAYS
  · obtain ⟨st1, hok2, hinv⟩ := AgroSolver.plan_day_work env sim day silent hw hwd
    rw [hok] at hok2
    obtain rfl := Except.ok.inj hok2
    unfold AgroSolver.LoopInv at hinv
    obtain ⟨-, -, -, -, hops, hsl0, hslcap, -⟩ := hinv
    dsimp only at hl
    obtain rfl := Option.some.inj hl
    cases silent with
    | true =>
      refine ⟨rfl, ?_⟩
      norm_num [AgroSolver.base_daily_log, AgroSolver.SLAUGHTERHOUSE_CAPACITY]
    | false =>
      obtain ⟨hto, htp⟩ := AgroSolver.foldl_pushOp st1.ops (AgroSolver.base_daily_log (day + 1))
      rw [if_neg (by simp)]
      constructor
      · rw [hto, htp]
        simp [AgroSolver.base_daily_log]
      · rw [htp]
        simp only [AgroSolver.base_daily_log, zero_add]
        rw [hops]
        exact hslcap
  · exfalso
    unfold AgroSolver.plan_day at hok
    dsimp only at hok
    rw [if_neg hwd] at hok
    obtain rfl := Except.ok.inj hok
    exact Option.noConfusion hl

/-- Witness for C2 on the empty state at day zero. -/
theorem C2_daily_capacity_witness :
    ((AgroSolver.base_daily_log 1).trucks_ops.map (fun op => op.pigs_delivered)).sum =
      (AgroSolver.base_daily_log 1).total_processed ∧
    (AgroSolver.base_daily_log 1).total_processed ≤ AgroSolver.SLAUGHTERHOUSE_CAPACITY :=
  C2_daily_capacity AgroSolver.zeroEnv AgroSolver.emptyState 0 false
    (AgroSolver.emptyState, some (AgroSolver.base_daily_log 1)) (AgroSolver.base_daily_log 1)
    (by intro f hf; exact absurd hf (List.not_mem_nil f))
    (by with_unfolding_all rfl) rfl

/-- C3: plan_day keeps every truck within the eight hour daily driving
budget; a trip is committed only when the accumulated hours plus the
recomputed duration stay at or below MAX_DAILY_HOURS. -/
theorem C3_daily_hours (env : AgroSolver.Env) (sim : AgroSolver.SimState) (day : ℤ)
    (silent : Bool) (r : AgroSolver.SimState × Option AgroSolver.DailyLog)
    (hprev : ∀ t ∈ sim.trucks, t.daily_hours_used ≤ AgroSolver.MAX_DAILY_HOURS)
    (hw : ∀ f ∈ AgroSolver.applyGrowth env day 0 sim.farms, 0 < f.avg_weight)
    (hok : AgroSolver.plan_day env sim day silent = .ok r) :
    ∀ t ∈ r.1.trucks, t.daily_hours_used ≤ AgroSolver.MAX_DAILY_HOURS := by
  by_cases hwd : (day % 7) ∈ AgroSolver.WORK_DAYS
  · obtain ⟨st1, hok2, hinv⟩ := AgroSolver.plan_day_work env sim day silent hw hwd
    rw [hok] at hok2
    obtain rfl := Except.ok.inj hok2
    unfold AgroSolver.LoopInv at hinv
    obtain ⟨-, -, -, hhrs, -, -, -, -⟩ := hinv
    exact hhrs
  · unfold AgroSolver.plan_day at hok
    dsimp only at hok
    rw [if_neg hwd] at hok
    obtain rfl := Except.ok.inj hok
    exact hprev

set_option maxRecDepth 400000 in
set_option maxHeartbeats 4000000 in
/-- Witness for C3 on the single farm state at day zero: the unique truck
ends the day within the legal hours. -/
theorem C3_daily_hours_witness :
    (AgroSolver.getTruckD AgroSolver.oneFarmResult.1.trucks 0).daily_hours_used ≤
      AgroSolver.MAX_DAILY_HOURS :=
  C3_daily_hours AgroSolver.zeroEnv AgroSolver.oneFarmState 0 false
    AgroSolver.oneFarmResult
    (by
      intro t ht
      simp only [AgroSolver.oneFarmState, List.mem_singleton] at ht
      subst ht
      decide)
    (by
      intro f hf
      simp only [AgroSolver.oneFarmState, AgroSolver.applyGrowth, AgroSolver.zeroEnv,
        AgroSolver.grow_pigs, AgroSolver.mkFarm, List.mem_singleton] at hf
      subst hf
      norm_num)
    (by with_unfolding_all rfl)
    (AgroSolver.getTruckD AgroSolver.oneFarmResult.1.trucks 0)
    (AgroSolver.getTruckD_mem (by decide))

set_option maxRecDepth 4000000 in
set_option maxHeartbeats 4000000 in
/-- C4 counterexample: on the concrete two farm state, day zero commits the
route A then B, but farm B receives no animals because the first stop
absorbs the whole daily slaughter capacity, so the last visit stamp of B
stays at the initial sentinel although B sits in a committed route of the
day. -/
theorem C4_counterexample :
    (AgroSolver.plan_day AgroSolver.zeroEnv AgroSolver.cexState 0 false).map
      (fun r => (r.2.map (fun l => l.trucks_ops.map (fun op => op.route)),
        (AgroSolver.getFarmD r.1.farms 1).last_visit_day)) =
      .ok (some [["A", "B"]], -999) ∧ (-999 : ℤ) ≠ (0 : ℤ) := by
  constructor
  · with_unfolding_all rfl
  · decide

/-- C4 amended: after a working day invocation on a state in which no farm
already carries the visit stamp of the day, a farm carries the stamp of the
day iff its inventory strictly decreased, that is iff a committed route
took a positive number of animals from it. -/
theorem C4_last_visit_amended (env : AgroSolver.Env) (sim : AgroSolver.SimState) (day : ℤ)
    (silent : Bool) (r : AgroSolver.SimState × Option AgroSolver.DailyLog)
    (l : AgroSolver.DailyLog) (i : ℕ)
    (hw : ∀ f ∈ AgroSolver.applyGrowth env day 0 sim.farms, 0 < f.avg_weight)
    (hprev : ∀ f ∈ sim.farms, f.last_visit_day ≠ day)
    (hi : i < sim.farms.length)
    (hok : AgroSolver.plan_day env sim day silent = .ok r) (hl : r.2 = some l) :
    ((AgroSolver.getFarmD r.1.farms i).last_visit_day = day ↔
      (AgroSolver.getFarmD r.1.farms i).inventory <
        (AgroSolver.getFarmD sim.farms i).inventory) := by
  by_cases hwd : (day % 7) ∈ AgroSolver.WORK_DAYS
  · obtain ⟨st1, hok2, hinv⟩ := AgroSolver.plan_day_work env sim day silent hw hwd
    rw [hok] at hok2
    obtain rfl := Except.ok.inj hok2
    unfold AgroSolver.LoopInv at hinv
    obtain ⟨-, -, -, -, -, -, -, hevo⟩ := hinv
    obtain ⟨hle, hlt, heqv⟩ := hevo i
    have hgrow := AgroSolver.getFarmD_applyGrowth env day sim.farms 0 i
    rw [if_pos hi] at hgrow
    have hfield := (AgroSolver.scoreCandidates_fields env
      (AgroSolver.computeCandidates (AgroSolver.applyGrowth env day 0 sim.farms) day)
      (AgroSolver.applyGrowth env day 0 sim.farms)).2 i
    have hinv0 : (AgroSolver.getFarmD (AgroSolver.initLoopSt env sim day).sim.farms i).inventory =
        (AgroSolver.getFarmD sim.farms i).inventory := by
      show (AgroSolver.getFarmD (AgroSolver.scoreCandidates env
        (AgroSolver.applyGrowth env day 0 sim.farms)
        (AgroSolver.computeCandidates (AgroSolver.applyGrowth env day 0 sim.farms) day)) i).inventory =
        (AgroSolver.getFarmD sim.farms i).inventory
      rw [hfield.1, hgrow, AgroSolver.grow_pigs_inventory]
    have hlast0 : (AgroSolver.getFarmD (AgroSolver.initLoopSt env sim day).sim.farms i).last_visit_day =
        (AgroSolver.getFarmD sim.farms i).last_visit_day := by
      show (AgroSolver.getFarmD (AgroSolver.scoreCandidates env
        (AgroSolver.applyGrowth env day 0 sim.farms)
        (AgroSolver.computeCandidates (AgroSolver.applyGrowth env day 0 sim.farms) day)) i).last_visit_day =
        (AgroSolver.getFarmD sim.farms i).last_visit_day
      rw [hfield.2.1, hgrow, AgroSolver.grow_pigs_last]
    have hne : (AgroSolver.getFarmD sim.farms i).last_visit_day ≠ day :=
      hprev _ (AgroSolver.getFarmD_mem hi)
    rw [hinv0] at hle hlt heqv
    rw [hlast0] at heqv
    constructor
    · intro hd
      rcases lt_or_eq_of_le hle with hstrict | heq
      · exact hstrict
      · exact absurd (heqv heq ▸ hd) hne
    · intro hdec
      exact hlt hdec
  · exfalso
    unfold AgroSolver.plan_day at hok
    dsimp only at hok
    rw [if_neg hwd] at hok
    obtain rfl := Except.ok.inj hok
    exact Option.noConfusion hl

set_option maxRecDepth 4000000 in
set_option maxHeartbeats 4000000 in
/-- Witness for the amended C4 on the single farm state: the unique farm is
emptied on day zero and carries the visit stamp. -/
theorem C4_last_visit_amended_witness :
    ((AgroSolver.getFarmD AgroSolver.oneFarmResult.1.farms 0).last_visit_day = 0 ↔
      (AgroSolver.getFarmD AgroSolver.oneFarmResult.1.farms 0).inventory <
        (AgroSolver.getFarmD AgroSolver.oneFarmState.farms 0).inventory) :=
  C4_last_visit_amended AgroSolver.zeroEnv AgroSolver.oneFarmState 0 false
    AgroSolver.oneFarmResult (AgroSolver.oneFarmResult.2.getD (AgroSolver.base_daily_log 1)) 0
    (by
      intro f hf
      simp only [AgroSolver.oneFarmState, AgroSolver.applyGrowth, AgroSolver.zeroEnv,
        AgroSolver.grow_pigs, AgroSolver.mkFarm, List.mem_singleton] at hf
      subst hf
      norm_num)
    (by
      intro f hf
      simp only [AgroSolver.oneFarmState, AgroSolver.mkFarm, List.mem_singleton] at hf
      subst hf
      decide)
    (by norm_num [AgroSolver.oneFarmState])
    (by with_unfolding_all rfl)
    (by with_unfolding_all rfl)

/-- C5: a farm position is in the candidate set of a day iff its inventory
is positive and at least seven days passed since its last visit; in
particular a farm stamped on day zero is locked out on days one to six and
eligible again on day seven while it still holds animals. -/
theorem C5_candidate_set :
    (∀ (farms : List AgroSolver.Farm) (D : ℤ) (i : ℕ), i < farms.length →
      (i ∈ AgroSolver.computeCandidates farms D ↔
        (AgroSolver.getFarmD farms i).inventory > 0 ∧
          D - (AgroSolver.getFarmD farms i).last_visit_day ≥ 7)) ∧
    (∀ (farms : List AgroSolver.Farm) (i : ℕ) (D : ℤ), i < farms.length →
      (AgroSolver.getFarmD farms i).last_visit_day = 0 →
      (1 ≤ D → D ≤ 6 → i ∉ AgroSolver.computeCandidates farms D) ∧
      (D = 7 → 0 < (AgroSolver.getFarmD farms i).inventory →
        i ∈ AgroSolver.computeCandidates farms 7)) := by
  constructor
  · intro farms D i hi
    rw [AgroSolver.mem_computeCandidates]
    constructor
    · rintro ⟨-, h7, hinv⟩
      exact ⟨hinv, h7⟩
    · rintro ⟨hinv, h7⟩
      exact ⟨hi, h7, hinv⟩
  · intro farms i D hi hlast
    constructor
    · intro h1 h6 hmem
      obtain ⟨-, h7, -⟩ := AgroSolver.mem_computeCandidates.mp hmem
      rw [hlast] at h7
      omega
    · intro hD hinv
      exact AgroSolver.mem_computeCandidates.mpr ⟨hi, by rw [hlast]; omega, hinv⟩

/-- Witness for C5: the single farm, never visited and stocked, is in the
candidate set of day zero. -/
theorem C5_candidate_set_witness :
    0 ∈ AgroSolver.computeCandidates AgroSolver.oneFarmState.farms 0 :=
  (C5_candidate_set.1 AgroSolver.oneFarmState.farms 0 0
    (by norm_num [AgroSolver.oneFarmState])).mpr
    (by constructor <;> decide)

/-- C10: a silent invocation of plan_day on a working day returns the empty
daily log for the day, no trip record, zero processed and zero profit,
while the simulation state, its totals and inventories included, is the
same state the non silent run produces. -/
theorem C10_silent_frame (env : AgroSolver.Env) (sim : AgroSolver.SimState) (day : ℤ)
    (r : AgroSolver.SimState × Option AgroSolver.DailyLog) (l : AgroSolver.DailyLog)
    (hok : AgroSolver.plan_day env sim day true = .ok r) (hl : r.2 = some l) :
    l = AgroSolver.base_daily_log (day + 1) ∧
    (AgroSolver.plan_day env sim day false).map Prod.fst = .ok r.1 := by
  unfold AgroSolver.plan_day at hok ⊢
  dsimp only at hok ⊢
  by_cases hwd : (day % 7) ∈ AgroSolver.WORK_DAYS
  · rw [if_pos hwd] at hok ⊢
    cases hrun : AgroSolver.runLoop env day
        ((AgroSolver.initLoopSt env sim day).candidates.length +
          (AgroSolver.initLoopSt env sim day).active_trucks.length + 1)
        (AgroSolver.initLoopSt env sim day) with
    | error e =>
      unfold AgroSolver.initLoopSt at hrun
      dsimp only at hrun
      rw [hrun] at hok
      exact absurd hok (fun h => Except.noConfusion h)
    | ok st1 =>
      unfold AgroSolver.initLoopSt at hrun
      dsimp only at hrun
      rw [hrun] at hok ⊢
      obtain rfl := Except.ok.inj hok
      dsimp only at hl ⊢
      exact ⟨(Option.some.inj hl).symm, rfl⟩
  · rw [if_neg hwd] at hok
    obtain rfl := Except.ok.inj hok
    exact absurd hl (fun h => Option.noConfusion h)

/-- Witness for C10 on the empty state at day zero. -/
theorem C10_silent_frame_witness :
    AgroSolver.base_daily_log 1 = AgroSolver.base_daily_log ((0 : ℤ) + 1) ∧
    (AgroSolver.plan_day AgroSolver.zeroEnv AgroSolver.emptyState 0 false).map Prod.fst =
      .ok (AgroSolver.emptyState, some (AgroSolver.base_daily_log 1)).1 :=
  C10_silent_frame AgroSolver.zeroEnv AgroSolver.emptyState 0
    (AgroSolver.emptyState, some (AgroSolver.base_daily_log 1)) (AgroSolver.base_daily_log 1)
    (by with_unfolding_all rfl) rfl

set_option maxRecDepth 400000 in
set_option maxHeartbeats 8000000 in
/-- C8: the fleet tournament horizon is NOT independent of the routing api.
Simulation.optimize_fleet calls plan_day(d, silent=True) without use_api,
and USE_REAL_ROADS_API is True, so get_real_road_distance consults the api
on every cache miss.  On the one farm scenario the fallback-only oracle
(api answering nothing, haversine zero) accumulates zero transport cost
over the fourteen days, while an oracle whose api answers one hundred
kilometres per leg makes the day zero trip cost two hundred kilometres at
rate 1.15 and load factor 0.55, so the horizon total is 126.5: the horizon
outcome depends on the api answers, refuting the claim that it equals the
fallback-only result. -/
theorem C8_api_dependence :
    (AgroSolver.run_horizon_silent AgroSolver.zeroEnv
        (AgroSolver.setup_scenario AgroSolver.rawOneFarm [] 1 0)).map
      (fun s => s.total_transport_cost) = .ok 0 ∧
    (AgroSolver.run_horizon_silent AgroSolver.apiEnv
        (AgroSolver.setup_scenario AgroSolver.rawOneFarm [] 1 0)).map
      (fun s => s.total_transport_cost) = .ok (253/2) ∧
    AgroSolver.apiEnv =
      { AgroSolver.zeroEnv with api := fun _ _ _ _ => some 100000 } :=
  ⟨by with_unfolding_all rfl, by with_unfolding_all rfl, rfl⟩
